import Mathlib

/-!
Verification development for the Urho3D UI batching and input-dispatch core
(Source/Urho3D/UI/UIBatch.{h,cpp}, Source/Urho3D/UI/UI.cpp,
Source/Urho3D/UI/BorderImage.cpp).

The C++ code is shallowly embedded: machine floats are modelled as rationals
(all arithmetic reached by the claims is exact on the inputs considered),
pointers are modelled as identity tags (`Nat`, or `Option Nat` when null is
possible), and the shared append-only vertex buffer is modelled as a list of
vertex records together with an identity tag for the pointer comparison in
`UIBatch::Merge`.  Stateful member functions become Lean functions from the
receiver to the updated receiver.
-/

set_option maxRecDepth 4000

namespace Urho3D

/-- Modelled from the spec: a two-component integer vector
(Source/Urho3D/Math/Vector2.h `IntVector2`, not under src/). -/
structure IntVector2 where
  x : Int
  y : Int
deriving DecidableEq, Repr

/-- Modelled from the spec: an integer rectangle with left/top/right/bottom
coordinates (Source/Urho3D/Math/Rect.h `IntRect`, not under src/). -/
structure IntRect where
  left : Int
  top : Int
  right : Int
  bottom : Int
deriving DecidableEq, Repr

/-- Modelled from the spec: an RGBA colour with real-valued channels
(Source/Urho3D/Math/Color.h `Color`, not under src/); channels are modelled
as rationals. -/
structure Color where
  r : ℚ
  g : ℚ
  b : ℚ
  a : ℚ
deriving DecidableEq, Repr

/-- Truncation of a rational toward zero, the behaviour of the C++
`(int)` cast applied to a float. -/
def ratTruncToInt (q : ℚ) : Int :=
  q.num / (q.den : Int)

/-- Modelled from the spec: `Color::ToUInt` packs the four channels into
an 0xAABBGGRR word, each channel scaled by 255, truncated and clamped to
[0, 255] (Source/Urho3D/Math/Color.cpp, not under src/). -/
def Color.ToUInt (c : Color) : Nat :=
  let r : Nat := (max 0 (min 255 (ratTruncToInt (c.r * 255)))).toNat
  let g : Nat := (max 0 (min 255 (ratTruncToInt (c.g * 255)))).toNat
  let b : Nat := (max 0 (min 255 (ratTruncToInt (c.b * 255)))).toNat
  let a : Nat := (max 0 (min 255 (ratTruncToInt (c.a * 255)))).toNat
  (a <<< 24) ||| (b <<< 16) ||| (g <<< 8) ||| r

/-- Modelled from the spec: linear interpolation between two colours
(Source/Urho3D/Math/Color.h `Color::Lerp`, not under src/). -/
def Color.Lerp (c1 c2 : Color) (t : ℚ) : Color :=
  { r := c1.r + (c2.r - c1.r) * t
    g := c1.g + (c2.g - c1.g) * t
    b := c1.b + (c2.b - c1.b) * t
    a := c1.a + (c2.a - c1.a) * t }

/-- Blend modes (Source/Urho3D/Graphics/GraphicsDefs.h, not under src/);
only the identity of the value matters to the batching code, so the enum is
modelled as a numeric tag. -/
abbrev BlendMode := Nat

/-- The BLEND_REPLACE enumerator (value 0 in GraphicsDefs.h). -/
def BLEND_REPLACE : BlendMode := 0

/-- The BLEND_ALPHA enumerator (value 3 in GraphicsDefs.h). -/
def BLEND_ALPHA : BlendMode := 3

/-- UI_VERTEX_SIZE from UIBatch.h line 39: floats per vertex. -/
def UI_VERTEX_SIZE : Nat := 6

/-- One interleaved vertex record (x, y, z, packed RGBA colour, u, v), the
unit written 6 floats at a time by the `AddQuad` family in UIBatch.cpp. -/
structure Vertex where
  x : ℚ
  y : ℚ
  z : ℚ
  color : Nat
  u : ℚ
  v : ℚ
deriving DecidableEq, Repr

/-- Modelled from the spec: the slice of the UIElement contract consumed by
UIBatch.cpp (Source/Urho3D/UI/UIElement.{h,cpp}, not under src/): screen
position, size, the four corner colours, derived opacity, derived colour
and the colour-gradient flag. -/
structure BatchElement where
  screenPosition : IntVector2
  size : IntVector2
  colorTopLeft : Color
  colorTopRight : Color
  colorBottomLeft : Color
  colorBottomRight : Color
  derivedOpacity : ℚ
  derivedColor : Color
  hasColorGradient : Bool
deriving DecidableEq, Repr

/-- UIBatch (UIBatch.h lines 46-189).  The C++ field `vertexData_` is a
pointer to the shared float buffer; it is modelled as the pair of an identity
tag `vertexData` (used by the pointer comparison in `Merge`) and the buffer
contents `buffer` (written by the `AddQuad` family; one `Vertex` stands for
`UI_VERTEX_SIZE` consecutive floats, so the C++ float count at a given point
is `UI_VERTEX_SIZE * buffer.length`).  `texture_` and `customMaterial_` are
pointers compared by identity, modelled as `Option Nat`. -/
structure UIBatch where
  element : BatchElement
  blendMode : BlendMode
  scissor : IntRect
  texture : Option Nat
  invTextureSize : ℚ × ℚ
  vertexData : Nat
  buffer : List Vertex
  vertexStart : Nat
  vertexEnd : Nat
  color : Nat
  useGradient : Bool
  customMaterial : Option Nat
deriving DecidableEq, Repr

/-- UIBatch::Merge (UIBatch.cpp lines 558-577): the receiver `self` absorbs
`batch` when blend mode, scissor, texture, vertex-buffer identity agree and
`batch.vertexStart = self.vertexEnd`; returns the success flag and the
(possibly updated) receiver.  Note the source compares neither `element_`
nor `customMaterial_`. -/
def UIBatch.Merge (self batch : UIBatch) : Bool × UIBatch :=
  if batch.blendMode ≠ self.blendMode ∨
      batch.scissor ≠ self.scissor ∨
      batch.texture ≠ self.texture ∨
      batch.vertexData ≠ self.vertexData ∨
      batch.vertexStart ≠ self.vertexEnd then
    (false, self)
  else
    (true, { self with vertexEnd := batch.vertexEnd })

/-- UIBatch::AddOrMerge (UIBatch.cpp lines 634-648): skip an empty batch,
otherwise try to merge into the back of the list (the C++ `Merge` mutates
the back element in place, modelled by rebuilding the list with the updated
back), and append on failure. -/
def UIBatch.AddOrMerge (batch : UIBatch) (batches : List UIBatch) : List UIBatch :=
  if batch.vertexEnd = batch.vertexStart then batches
  else
    match batches.getLast? with
    | some back =>
        let m := UIBatch.Merge back batch
        let batches2 := batches.dropLast ++ [m.2]
        if m.1 then batches2 else batches2 ++ [batch]
    | none => batches ++ [batch]

/-- UIBatch::GetInterpolatedColor (UIBatch.cpp lines 590-622): bilinear
interpolation of the element's four corner colours at (x, y) expressed as a
fraction of the element's size, clamped to [0,1]; alpha multiplied by the
derived opacity; degenerate sizes fall back to the top-left colour. -/
def UIBatch.GetInterpolatedColor (self : UIBatch) (x y : ℚ) : Nat :=
  let size := self.element.size
  if size.x ≠ 0 ∧ size.y ≠ 0 then
    let cLerpX := min (max (x / (size.x : ℚ)) 0) 1
    let cLerpY := min (max (y / (size.y : ℚ)) 0) 1
    let topColor := self.element.colorTopLeft.Lerp self.element.colorTopRight cLerpX
    let bottomColor := self.element.colorBottomLeft.Lerp self.element.colorBottomRight cLerpX
    let color := topColor.Lerp bottomColor cLerpY
    let color := { color with a := color.a * self.element.derivedOpacity }
    color.ToUInt
  else
    let color := self.element.colorTopLeft
    let color := { color with a := color.a * self.element.derivedOpacity }
    color.ToUInt

/-- UIBatch::AddQuad, float variant (UIBatch.cpp lines 141-240).  Appends six
vertices (two triangles: TL,TR,BL then TR,BR,BL) unless there is no gradient
and the solid colour's alpha byte is zero.  The static `posAdjust` (UIBatch.cpp
line 34, written by UI initialisation) is passed explicitly; only its x and y
components are observable because the z coordinate is written as literal 0. -/
def UIBatch.AddQuadF (self : UIBatch) (posAdjust : ℚ × ℚ) (x y width height : ℚ)
    (texOffsetX texOffsetY texWidth texHeight : Int) : UIBatch :=
  if self.useGradient = false ∧ self.color &&& 0xff000000 = 0 then self
  else
    let topLeftColor := if self.useGradient then self.GetInterpolatedColor x y else self.color
    let topRightColor := if self.useGradient then self.GetInterpolatedColor (x + width) y else self.color
    let bottomLeftColor := if self.useGradient then self.GetInterpolatedColor x (y + height) else self.color
    let bottomRightColor :=
      if self.useGradient then self.GetInterpolatedColor (x + width) (y + height) else self.color
    let screenPos := self.element.screenPosition
    let left := x + (screenPos.x : ℚ) - posAdjust.1
    let right := left + width
    let top := y + (screenPos.y : ℚ) - posAdjust.2
    let bottom := top + height
    let leftUV := (texOffsetX : ℚ) * self.invTextureSize.1
    let topUV := (texOffsetY : ℚ) * self.invTextureSize.2
    let rightUV := ((texOffsetX : ℚ) + (if texWidth ≠ 0 then (texWidth : ℚ) else width)) * self.invTextureSize.1
    let bottomUV := ((texOffsetY : ℚ) + (if texHeight ≠ 0 then (texHeight : ℚ) else height)) * self.invTextureSize.2
    let buffer := self.buffer ++
      [⟨left, top, 0, topLeftColor, leftUV, topUV⟩,
       ⟨right, top, 0, topRightColor, rightUV, topUV⟩,
       ⟨left, bottom, 0, bottomLeftColor, leftUV, bottomUV⟩,
       ⟨right, top, 0, topRightColor, rightUV, topUV⟩,
       ⟨right, bottom, 0, bottomRightColor, rightUV, bottomUV⟩,
       ⟨left, bottom, 0, bottomLeftColor, leftUV, bottomUV⟩]
    { self with buffer := buffer, vertexEnd := UI_VERTEX_SIZE * buffer.length }

/-- Modelled from the spec: a 3x4 affine transform
(Source/Urho3D/Math/Matrix3x4.h, not under src/); only the action on
(x, y, 0, 1) matters to the quad paths, and the emitted z is literal 0,
so only the first two output rows are kept. -/
structure Matrix3x4 where
  m00 : ℚ
  m01 : ℚ
  m03 : ℚ
  m10 : ℚ
  m11 : ℚ
  m13 : ℚ
deriving DecidableEq, Repr

/-- Action of the transform on a point (x, y, 0): the m02/m12 column is
multiplied by z = 0 and therefore dropped. -/
def Matrix3x4.applyXY (m : Matrix3x4) (x y : ℚ) : ℚ × ℚ :=
  (m.m00 * x + m.m01 * y + m.m03, m.m10 * x + m.m11 * y + m.m13)

/-- UIBatch::AddQuad, transform variant (UIBatch.cpp lines 259-355).  Same
alpha/gradient gate as the float variant; the four corners are transformed
and `posAdjust` subtracted; vertex order TL,TR,BL,TR,BR,BL. -/
def UIBatch.AddQuadM (self : UIBatch) (posAdjust : ℚ × ℚ) (transform : Matrix3x4)
    (x y width height texOffsetX texOffsetY texWidth texHeight : Int) : UIBatch :=
  if self.useGradient = false ∧ self.color &&& 0xff000000 = 0 then self
  else
    let topLeftColor := if self.useGradient then self.GetInterpolatedColor (x : ℚ) (y : ℚ) else self.color
    let topRightColor := if self.useGradient then self.GetInterpolatedColor ((x + width : Int) : ℚ) (y : ℚ) else self.color
    let bottomLeftColor := if self.useGradient then self.GetInterpolatedColor (x : ℚ) ((y + height : Int) : ℚ) else self.color
    let bottomRightColor :=
      if self.useGradient then self.GetInterpolatedColor ((x + width : Int) : ℚ) ((y + height : Int) : ℚ) else self.color
    let v1 := transform.applyXY (x : ℚ) (y : ℚ)
    let v2 := transform.applyXY ((x : ℚ) + (width : ℚ)) (y : ℚ)
    let v3 := transform.applyXY (x : ℚ) ((y : ℚ) + (height : ℚ))
    let v4 := transform.applyXY ((x : ℚ) + (width : ℚ)) ((y : ℚ) + (height : ℚ))
    let v1 := (v1.1 - posAdjust.1, v1.2 - posAdjust.2)
    let v2 := (v2.1 - posAdjust.1, v2.2 - posAdjust.2)
    let v3 := (v3.1 - posAdjust.1, v3.2 - posAdjust.2)
    let v4 := (v4.1 - posAdjust.1, v4.2 - posAdjust.2)
    let leftUV := (texOffsetX : ℚ) * self.invTextureSize.1
    let topUV := (texOffsetY : ℚ) * self.invTextureSize.2
    let rightUV := ((texOffsetX + (if texWidth ≠ 0 then texWidth else width) : Int) : ℚ) * self.invTextureSize.1
    let bottomUV := ((texOffsetY + (if texHeight ≠ 0 then texHeight else height) : Int) : ℚ) * self.invTextureSize.2
    let buffer := self.buffer ++
      [⟨v1.1, v1.2, 0, topLeftColor, leftUV, topUV⟩,
       ⟨v2.1, v2.2, 0, topRightColor, rightUV, topUV⟩,
       ⟨v3.1, v3.2, 0, bottomLeftColor, leftUV, bottomUV⟩,
       ⟨v2.1, v2.2, 0, topRightColor, rightUV, topUV⟩,
       ⟨v4.1, v4.2, 0, bottomRightColor, rightUV, bottomUV⟩,
       ⟨v3.1, v3.2, 0, bottomLeftColor, leftUV, bottomUV⟩]
    { self with buffer := buffer, vertexEnd := UI_VERTEX_SIZE * buffer.length }

/-- UIBatch::AddQuad, free-points variant without per-corner colours
(UIBatch.cpp lines 419-478).  Appends six vertices (v1,v2,v3 then v1,v3,v4)
using the batch colour for every corner; note there is no alpha or gradient
gate in this path. -/
def UIBatch.AddQuadPoints (self : UIBatch) (posAdjust : ℚ × ℚ) (transform : Matrix3x4)
    (a b c d texA texB texC texD : IntVector2) : UIBatch :=
  let v1 := transform.applyXY (a.x : ℚ) (a.y : ℚ)
  let v2 := transform.applyXY (b.x : ℚ) (b.y : ℚ)
  let v3 := transform.applyXY (c.x : ℚ) (c.y : ℚ)
  let v4 := transform.applyXY (d.x : ℚ) (d.y : ℚ)
  let v1 := (v1.1 - posAdjust.1, v1.2 - posAdjust.2)
  let v2 := (v2.1 - posAdjust.1, v2.2 - posAdjust.2)
  let v3 := (v3.1 - posAdjust.1, v3.2 - posAdjust.2)
  let v4 := (v4.1 - posAdjust.1, v4.2 - posAdjust.2)
  let uv1 := ((texA.x : ℚ) * self.invTextureSize.1, (texA.y : ℚ) * self.invTextureSize.2)
  let uv2 := ((texB.x : ℚ) * self.invTextureSize.1, (texB.y : ℚ) * self.invTextureSize.2)
  let uv3 := ((texC.x : ℚ) * self.invTextureSize.1, (texC.y : ℚ) * self.invTextureSize.2)
  let uv4 := ((texD.x : ℚ) * self.invTextureSize.1, (texD.y : ℚ) * self.invTextureSize.2)
  let buffer := self.buffer ++
    [⟨v1.1, v1.2, 0, self.color, uv1.1, uv1.2⟩,
     ⟨v2.1, v2.2, 0, self.color, uv2.1, uv2.2⟩,
     ⟨v3.1, v3.2, 0, self.color, uv3.1, uv3.2⟩,
     ⟨v1.1, v1.2, 0, self.color, uv1.1, uv1.2⟩,
     ⟨v3.1, v3.2, 0, self.color, uv3.1, uv3.2⟩,
     ⟨v4.1, v4.2, 0, self.color, uv4.1, uv4.2⟩]
  { self with buffer := buffer, vertexEnd := UI_VERTEX_SIZE * buffer.length }

/-- Inner while-loop of the tiled UIBatch::AddQuad (UIBatch.cpp lines
402-412): one row of the tiling.  Emits the (tileX, tileY, tileW, tileH)
argument tuples of the inner AddQuad calls in call order.  The C++ loop has
no bound on its iteration count, so the embedding carries fuel and returns
none when the fuel is exhausted before the loop condition fails (in
particular on every fuel when the loop does not terminate). -/
def tileRowCalls (fuel : Nat) (width texWidth tileY tileH : Int) (tileX : Int) :
    Option (List (Int × Int × Int × Int)) :=
  match fuel with
  | 0 => none
  | fuel' + 1 =>
    if tileX < width then
      let tileW := min (width - tileX) texWidth
      match tileRowCalls fuel' width texWidth tileY tileH (tileX + tileW) with
      | none => none
      | some rest => some ((tileX, tileY, tileW, tileH) :: rest)
    else some []

/-- Outer while-loop of the tiled UIBatch::AddQuad (UIBatch.cpp lines
394-416): iterates over rows, each row clipped to `min (height - tileY)
texHeight`, resetting tileX to 0 per row. -/
def tileCalls (fuel fuelRow : Nat) (width height texWidth texHeight : Int) (tileY : Int) :
    Option (List (Int × Int × Int × Int)) :=
  match fuel with
  | 0 => none
  | fuel' + 1 =>
    if tileY < height then
      let tileH := min (height - tileY) texHeight
      match tileRowCalls fuelRow width texWidth tileY tileH 0 with
      | none => none
      | some row =>
        match tileCalls fuel' fuelRow width height texWidth texHeight (tileY + tileH) with
        | none => none
        | some rest => some (row ++ rest)
    else some []

/-- UIBatch::AddQuad, tiled variant (UIBatch.cpp lines 374-417).  Gate: if
the element has no colour gradient and the element's derived colour has a
zero alpha byte, nothing is emitted.  Non-tiled calls delegate to the float
variant.  Tiled calls run the partition loop (modelled by `tileCalls`, which
collects the inner call arguments; the inner calls are then replayed in
order by a fold, which is equivalent because the loop control never reads
the batch state) and pass each tile's clipped size as both the quad size and
the texture size (UIBatch.cpp line 408). -/
def UIBatch.AddQuadTiled (self : UIBatch) (posAdjust : ℚ × ℚ) (fuel fuelRow : Nat)
    (x y width height texOffsetX texOffsetY texWidth texHeight : Int) (tiled : Bool) :
    Option UIBatch :=
  if ¬(self.element.hasColorGradient = true ∨ self.element.derivedColor.ToUInt &&& 0xff000000 ≠ 0) then
    some self
  else if tiled = false then
    some (self.AddQuadF posAdjust (x : ℚ) (y : ℚ) (width : ℚ) (height : ℚ)
      texOffsetX texOffsetY texWidth texHeight)
  else
    match tileCalls fuel fuelRow width height texWidth texHeight 0 with
    | none => none
    | some calls =>
      some (calls.foldl
        (fun bt q =>
          bt.AddQuadF posAdjust ((x + q.1 : Int) : ℚ) ((y + q.2.1 : Int) : ℚ)
            ((q.2.2.1 : Int) : ℚ) ((q.2.2.2 : Int) : ℚ)
            texOffsetX texOffsetY q.2.2.1 q.2.2.2)
        self)

/-- M_MAX_UNSIGNED (Source/Urho3D/Math/MathDefs.h). -/
def M_MAX_UNSIGNED : Nat := 4294967295

/-- The uvBorder selection in BorderImage::GetBatches (BorderImage.cpp line
173): the image border if set, else the plain border. -/
def borderImageUvBorder (border imageBorder : IntRect) : IntRect :=
  if imageBorder = ⟨0, 0, 0, 0⟩ then border else imageBorder

/-- innerSize in BorderImage::GetBatches (BorderImage.cpp lines 175-182):
element size, minus indent on x, minus the borders, clamped to 0. -/
def borderImageInnerSize (size : IntVector2) (indent : Int) (border : IntRect) : IntVector2 :=
  ⟨max (size.x - indent - border.left - border.right) 0,
   max (size.y - border.top - border.bottom) 0⟩

/-- innerUvSize in BorderImage::GetBatches (BorderImage.cpp lines 184-186):
image-rect extent minus the uv borders, clamped to 0.  This is the value
passed as texWidth/texHeight to the tiled centre AddQuad call
(BorderImage.cpp line 216). -/
def borderImageInnerUvSize (imageRect uvBorder : IntRect) : IntVector2 :=
  ⟨max (imageRect.right - imageRect.left - uvBorder.left - uvBorder.right) 0,
   max (imageRect.bottom - imageRect.top - uvBorder.top - uvBorder.bottom) 0⟩

/-- Pointwise addition on IntVector2 (operator+ in Vector2.h). -/
instance : Add IntVector2 := ⟨fun a b => ⟨a.x + b.x, a.y + b.y⟩⟩

/-- DD_SOURCE flag (UIElement.h DragAndDropMode). -/
def DD_SOURCE : Nat := 1

/-- DD_TARGET flag (UIElement.h DragAndDropMode). -/
def DD_TARGET : Nat := 2

/-- The slice of per-element state read by the router loops in UI.cpp:
weak-pointer liveness (`alive`), IsEnabled, IsVisible and GetDragDropMode.
The router stores elements as weak references keyed by identity; elements
are modelled as identity tags looked up in an environment of this type. -/
structure ElemInfo where
  alive : Bool
  enabled : Bool
  visible : Bool
  dragDropMode : Nat
deriving DecidableEq, Repr

/-- UI::DragData (UI.h): participating buttons bitmask, pending flag, the
two position sums, the promotion timer (as elapsed milliseconds) and the
cached button count. -/
structure DragData where
  dragButtons : Nat
  dragBeginPending : Bool
  sumPos : IntVector2
  dragBeginSumPos : IntVector2
  dragBeginTimerMs : Nat
  numDragButtons : Nat
deriving DecidableEq, Repr

/-- CountSetBits (Source/Urho3D/Math/MathDefs.h): population count. -/
def countSetBits (n : Nat) : Nat :=
  if h : n = 0 then 0 else n % 2 + countSetBits (n / 2)
decreasing_by exact Nat.div_lt_self (by omega) (by omega)

/-- The callbacks and events emitted by the router paths under study, in
emission order.  Each constructor stands for one OnXxx virtual call or one
SendEvent in UI.cpp. -/
inductive UIEvent where
  | setFocus (elem : Option Nat)
  | bringToFront (elem : Nat)
  | clickBegin (elem : Nat)
  | uiClick (elem : Option Nat)
  | onDoubleClick (elem : Nat)
  | uiDoubleClick (elem : Option Nat)
  | clickEnd (elem : Nat)
  | uiClickEnd (dragElem : Nat) (elem : Option Nat)
  | dragBegin (elem : Nat)
  | dragMove (elem : Nat)
  | dragEnd (elem : Nat)
  | dragCancel (elem : Nat)
  | dragDropFinish (source target : Nat)
deriving DecidableEq, Repr

/-- The drag registry `dragElements_`: an association list from element tag
to DragData, in hash-map iteration order; insertion appends. -/
abbrev DragRegistry := List (Nat × DragData)

/-- HashMap::Contains on the drag registry (UI.cpp line 1585). -/
def registryContains (registry : DragRegistry) (e : Nat) : Bool :=
  registry.any (fun p => p.1 = e)

/-- In-place update of one registry entry (UI.cpp lines 1602-1606 mutate
through the stored pointer). -/
def registryModify (registry : DragRegistry) (e : Nat) (f : DragData → DragData) : DragRegistry :=
  registry.map (fun p => if p.1 = e then (p.1, f p.2) else p)

/-- The click-detection state of UI that ProcessClickBegin reads and
writes: `doubleClickElement_`, `doubleClickFirstPos_` and
`lastMouseButtons_`.  The click timer is modelled by passing its current
elapsed value in milliseconds as an input (the code reads it with
`GetMSec(true)`, which also resets it; the reset itself has no further
observable effect within one call). -/
structure ClickState where
  doubleClickElement : Option Nat
  doubleClickFirstPos : IntVector2
  lastMouseButtons : Nat
deriving DecidableEq, Repr

/-- The float comparison `(windowCursorPos - doubleClickFirstPos_).Length()
< maxDoubleClickDist_` (UI.cpp line 1571) with Length() = sqrt(dx²+dy²):
encoded without square roots as `0 < m ∧ dx² + dy² < m²`, which is
equivalent for the exact reals (see lemma `lengthLt_iff_sqrt`). -/
def lengthLt (dx dy : Int) (m : ℚ) : Bool :=
  decide (0 < m) && decide (((dx * dx + dy * dy : Int) : ℚ) < m * m)

/-- UI::ProcessClickBegin (UI.cpp lines 1542-1622).  Inputs: the element
found under the cursor by GetElementAt (`hit`, with its projected cursor
position `cursorPos`), the pressed button, the held-buttons bitmask as
passed by the caller, the double-click configuration
(`doubleClickIntervalMs` standing for `(unsigned)(doubleClickInterval_ *
1000)`, `maxDoubleClickDist`), and the elapsed click-timer value.  Returns
the updated click state, the updated drag registry and the emitted events
in order.  Re-entrant destruction by callbacks is not modelled (elements
stay live for the duration of the call). -/
def processClickBegin (usingTouchInput hasModal : Bool) (cs : ClickState)
    (registry : DragRegistry) (doubleClickIntervalMs : Nat) (maxDoubleClickDist : ℚ)
    (clickTimerMs : Nat) (windowCursorPos : IntVector2) (hit : Option Nat)
    (cursorPos : IntVector2) (button buttonsIn : Nat) (cursorVisible : Bool) :
    ClickState × DragRegistry × List UIEvent :=
  if cursorVisible = false then (cs, registry, [])
  else
    let newButton : Bool := if usingTouchInput then decide (buttonsIn &&& button = 0) else true
    let buttons := buttonsIn ||| button
    match hit with
    | some e =>
      let evs0 := [UIEvent.setFocus (some e), UIEvent.bringToFront e,
                   UIEvent.clickBegin e, UIEvent.uiClick (some e)]
      let isDouble := cs.doubleClickElement = some e ∧
        clickTimerMs < doubleClickIntervalMs ∧ cs.lastMouseButtons = buttons ∧
        lengthLt (windowCursorPos.x - cs.doubleClickFirstPos.x)
          (windowCursorPos.y - cs.doubleClickFirstPos.y) maxDoubleClickDist = true
      let evs1 := if isDouble then [UIEvent.onDoubleClick e, UIEvent.uiDoubleClick (some e)] else []
      let dcElem := if isDouble then none else some e
      let dcPos := if isDouble then cs.doubleClickFirstPos else windowCursorPos
      let registry2 :=
        if registryContains registry e = false then
          registry ++ [(e,
            { dragButtons := button
              dragBeginPending := true
              sumPos := cursorPos
              dragBeginSumPos := cursorPos
              dragBeginTimerMs := 0
              numDragButtons := countSetBits button })]
        else if newButton = true then
          registryModify registry e (fun d =>
            { d with
              sumPos := d.sumPos + cursorPos
              dragBeginSumPos := d.dragBeginSumPos + cursorPos
              dragButtons := d.dragButtons ||| button
              numDragButtons := countSetBits (d.dragButtons ||| button) })
        else registry
      ({ doubleClickElement := dcElem, doubleClickFirstPos := dcPos, lastMouseButtons := buttons },
       registry2, evs0 ++ evs1)
    | none =>
      let evs0 := (if hasModal = false then [UIEvent.setFocus none] else []) ++ [UIEvent.uiClick none]
      let isDouble := clickTimerMs < doubleClickIntervalMs ∧ cs.lastMouseButtons = buttons ∧
        lengthLt (windowCursorPos.x - cs.doubleClickFirstPos.x)
          (windowCursorPos.y - cs.doubleClickFirstPos.y) maxDoubleClickDist = true
      let evs1 := if isDouble then [UIEvent.uiDoubleClick none] else []
      ({ cs with lastMouseButtons := buttons }, registry, evs0 ++ evs1)

/-- UI::ProcessClickEnd (UI.cpp lines 1624-1688): iterate the drag
registry; erase dead entries (or all entries when the cursor is not
visible); for each entry whose buttons contain the released button, fire
OnClickEnd on the element under the cursor and the click-end event, fire
OnDragEnd (and possibly the drag-drop finish pair) when the drag element is
enabled, visible and no longer pending, then erase the entry; other
entries are kept untouched. -/
def processClickEnd (env : Nat → ElemInfo) (hit : Option Nat) (button : Nat)
    (cursorVisible : Bool) : DragRegistry → DragRegistry × List UIEvent
  | [] => ([], [])
  | (eId, d) :: rest =>
    if (env eId).alive = false ∨ cursorVisible = false then
      processClickEnd env hit button cursorVisible rest
    else if d.dragButtons &&& button ≠ 0 then
      let evs1 := (match hit with
        | some h => [UIEvent.clickEnd h]
        | none => []) ++ [UIEvent.uiClickEnd eId hit]
      let evs2 :=
        if (env eId).enabled = true ∧ (env eId).visible = true ∧ d.dragBeginPending = false then
          UIEvent.dragEnd eId ::
            (if (env eId).dragDropMode &&& DD_SOURCE ≠ 0 then
              match hit with
              | some h =>
                if (env h).dragDropMode &&& DD_TARGET ≠ 0 ∧ h ≠ eId then
                  [UIEvent.dragDropFinish eId h]
                else []
              | none => []
            else [])
        else []
      let r := processClickEnd env hit button cursorVisible rest
      (r.1, evs1 ++ evs2 ++ r.2)
    else
      let r := processClickEnd env hit button cursorVisible rest
      ((eId, d) :: r.1, r.2)

/-- The registry loop of UI::ProcessDragCancel (UI.cpp lines 2223-2237):
entries that are live, enabled, visible and already ACTIVE (not pending)
receive OnDragCancel and are erased; every other entry — in particular
every still-PENDING entry — is skipped with `++i` and stays in the
registry untouched. -/
def processDragCancelLoop (env : Nat → ElemInfo) : DragRegistry → DragRegistry × List UIEvent
  | [] => ([], [])
  | (eId, d) :: rest =>
    if (env eId).alive = true ∧ (env eId).enabled = true ∧ (env eId).visible = true ∧
        d.dragBeginPending = false then
      let r := processDragCancelLoop env rest
      (r.1, UIEvent.dragCancel eId :: r.2)
    else
      let r := processDragCancelLoop env rest
      ((eId, d) :: r.1, r.2)

/-- UI::ProcessDragCancel (UI.cpp lines 2213-2238): a no-op under touch
input, otherwise the registry loop above. -/
def processDragCancel (env : Nat → ElemInfo) (usingTouchInput : Bool)
    (registry : DragRegistry) : DragRegistry × List UIEvent :=
  if usingTouchInput then (registry, []) else processDragCancelLoop env registry

/-- The element state consumed by UI::SetModalElement: runtime type tag
(GetType), parent pointer, ordered child list, the VAR_ORIGIN pointer, and
the three tag-store slots the function reads/writes (VAR_ORIGINAL_PARENT,
VAR_ORIGINAL_CHILD_INDEX, VAR_PARENT_CHANGED).  A slot of value `none`
means the variant is absent from the store; `GetPtr` on an absent variant
yields a null pointer and `GetUInt` yields 0. -/
structure MElem where
  etype : Nat
  parent : Option Nat
  children : List Nat
  origin : Option Nat
  originalParent : Option (Option Nat)
  originalChildIndex : Option Nat
  parentChanged : Option Nat
deriving DecidableEq, Repr

/-- The element world seen by SetModalElement: elements keyed by identity
tag, plus the identities of `rootElement_` and `rootModalElement_`. -/
structure ModalWorld where
  elems : List (Nat × MElem)
  rootId : Nat
  rootModalId : Nat
deriving DecidableEq, Repr

/-- Element lookup by identity. -/
def ModalWorld.get (w : ModalWorld) (id : Nat) : Option MElem :=
  (w.elems.find? (fun p => p.1 = id)).map (·.2)

/-- Replace the state of the element with the given identity. -/
def ModalWorld.set (w : ModalWorld) (id : Nat) (e : MElem) : ModalWorld :=
  { w with elems := w.elems.map (fun p => if p.1 = id then (p.1, e) else p) }

/-- UIElement::FindChild (Modelled from the spec: UIElement.cpp is not
under src/): index of the child in the parent's child list, or
M_MAX_UNSIGNED when absent. -/
def findChildIndex (children : List Nat) (c : Nat) : Nat :=
  if children.contains c then children.indexOf c else M_MAX_UNSIGNED

/-- Modelled from the spec: UIElement::SetParent(parent, index) detaches
the element from its current parent's child list and inserts it into the
new parent's child list at the given index, clamped to the list length
(an omitted index, M_MAX_UNSIGNED in the C++ default, appends at the end);
the element's parent pointer is updated (UIElement.cpp, not under src/). -/
def ModalWorld.setParent (w : ModalWorld) (childId : Nat) (newParent : Option Nat)
    (index : Nat) : ModalWorld :=
  let w1 :=
    match (w.get childId).bind (·.parent) with
    | some oldP =>
      match w.get oldP with
      | some ope => w.set oldP { ope with children := ope.children.erase childId }
      | none => w
    | none => w
  let w2 :=
    match w1.get childId with
    | some ce => w1.set childId { ce with parent := newParent }
    | none => w1
  match newParent with
  | some p =>
    match w2.get p with
    | some pe =>
      w2.set p { pe with children := pe.children.insertIdx (min index pe.children.length) childId }
    | none => w2
  | none => w2

/-- The popup walk in UI::SetModalElement (UI.cpp lines 261-263): climb
parents from the origin element until an element whose parent is
rootElement_ is found; ends at null when the chain runs out (fuel bounds
the walk; a cycle, impossible in a well-formed tree, also yields null). -/
def walkToRootChild (w : ModalWorld) : Nat → Option Nat → Option Nat
  | _, none => none
  | 0, some _ => none
  | fuel + 1, some id =>
    let parent := (w.get id).bind (·.parent)
    if parent = some w.rootId then some id
    else walkToRootChild w fuel parent

/-- UI::SetModalElement (UI.cpp lines 235-307).  `windowTypeId` stands for
Window::GetTypeStatic().  Rejections (null element, non-Window type,
enable when already under the modal root, disable when not under the modal
root) return false with the world untouched; acceptance performs the
recorded reparenting.  A dangling identity (not in the world) is also a
no-op — the C++ precondition is that the pointer is valid. -/
def SetModalElement (w : ModalWorld) (modalElement : Option Nat) (enable : Bool)
    (windowTypeId : Nat) (walkFuel : Nat) : Bool × ModalWorld :=
  match modalElement with
  | none => (false, w)
  | some id =>
    match w.get id with
    | none => (false, w)
    | some me =>
      if me.etype ≠ windowTypeId then (false, w)
      else
        let currParent := me.parent
        if enable then
          if currParent = some w.rootModalId then (false, w)
          else
            let idx :=
              match currParent with
              | some p =>
                match w.get p with
                | some pe => findChildIndex pe.children id
                | none => M_MAX_UNSIGNED
              | none => M_MAX_UNSIGNED
            let w1 := w.set id { me with originalParent := some currParent, originalChildIndex := some idx }
            let w2 := w1.setParent id (some w.rootModalId) M_MAX_UNSIGNED
            match me.origin with
            | some originId =>
              match walkToRootChild w2 walkFuel (some originId) with
              | some el =>
                let w3 :=
                  match w2.get originId with
                  | some oe => w2.set originId { oe with parentChanged := some el }
                  | none => w2
                let oriParent := (w3.get el).bind (·.parent)
                let oriIdx :=
                  match oriParent with
                  | some p =>
                    match w3.get p with
                    | some pe => findChildIndex pe.children el
                    | none => M_MAX_UNSIGNED
                  | none => M_MAX_UNSIGNED
                let w4 :=
                  match w3.get el with
                  | some ee => w3.set el { ee with originalParent := some oriParent, originalChildIndex := some oriIdx }
                  | none => w3
                (true, w4.setParent el (some w.rootModalId) M_MAX_UNSIGNED)
              | none => (true, w2)
            | none => (true, w2)
        else
          if currParent ≠ some w.rootModalId then (false, w)
          else
            let origParent : Option Nat := me.originalParent.getD none
            let origIdx : Nat := me.originalChildIndex.getD 0
            let w1 := w.setParent id origParent origIdx
            let w2 :=
              match w1.get id with
              | some ce => w1.set id { ce with originalParent := none, originalChildIndex := none }
              | none => w1
            match me.origin with
            | some originId =>
              match (w2.get originId).bind (·.parentChanged) with
              | some el =>
                let w3 :=
                  match w2.get originId with
                  | some oe => w2.set originId { oe with parentChanged := none }
                  | none => w2
                let elParent : Option Nat := ((w3.get el).bind (·.originalParent)).getD none
                let elIdx : Nat := (((w3.get el).map (·.originalChildIndex)).join).getD 0
                let w4 := w3.setParent el elParent elIdx
                let w5 :=
                  match w4.get el with
                  | some ee => w4.set el { ee with originalParent := none, originalChildIndex := none }
                  | none => w4
                (true, w5)
              | none => (true, w2)
            | none => (true, w2)

/-- Layout modes (UIElement.h LayoutMode): LM_FREE, LM_HORIZONTAL,
LM_VERTICAL. -/
inductive LayoutMode where
  | free
  | horizontal
  | vertical
deriving DecidableEq, Repr

/-- The slice of the UIElement tree consumed by the hit-test engine
(UI::GetElementAt): identity tag, position relative to the parent, size,
visibility/enabled flags, whether this element is the UI cursor, priority
(for SortChildren), layout mode with the two layout metrics read by the
skip optimisation, and the ordered child list.  Modelled from the spec:
UIElement itself is an external collaborator (UIElement.cpp not under
src/); a child's screen position is its parent's screen position plus its
own position. -/
inductive UIElem where
  | mk (tag : Nat) (position : IntVector2) (size : IntVector2) (visible enabled isCursorElem : Bool)
      (priority : Int) (layoutMode : LayoutMode) (layoutMaxSize layoutSpacing : Int)
      (children : List UIElem)

/-- Identity tag accessor. -/
def UIElem.tag : UIElem → Nat
  | .mk t _ _ _ _ _ _ _ _ _ _ => t

/-- Position accessor (relative to the parent). -/
def UIElem.position : UIElem → IntVector2
  | .mk _ p _ _ _ _ _ _ _ _ _ => p

/-- Size accessor. -/
def UIElem.size : UIElem → IntVector2
  | .mk _ _ s _ _ _ _ _ _ _ _ => s

/-- IsVisible accessor. -/
def UIElem.visible : UIElem → Bool
  | .mk _ _ _ v _ _ _ _ _ _ _ => v

/-- IsEnabled accessor. -/
def UIElem.enabled : UIElem → Bool
  | .mk _ _ _ _ e _ _ _ _ _ _ => e

/-- Whether this element is the UI cursor (compared by pointer identity
with cursor_ in the C++). -/
def UIElem.isCursorElem : UIElem → Bool
  | .mk _ _ _ _ _ c _ _ _ _ _ => c

/-- GetPriority accessor. -/
def UIElem.priority : UIElem → Int
  | .mk _ _ _ _ _ _ p _ _ _ _ => p

/-- GetLayoutMode accessor. -/
def UIElem.layoutMode : UIElem → LayoutMode
  | .mk _ _ _ _ _ _ _ m _ _ _ => m

/-- GetLayoutElementMaxSize accessor. -/
def UIElem.layoutMaxSize : UIElem → Int
  | .mk _ _ _ _ _ _ _ _ s _ _ => s

/-- GetLayoutSpacing accessor. -/
def UIElem.layoutSpacing : UIElem → Int
  | .mk _ _ _ _ _ _ _ _ _ s _ => s

/-- Child list accessor. -/
def UIElem.children : UIElem → List UIElem
  | .mk _ _ _ _ _ _ _ _ _ _ c => c

/-- Modelled from the spec: UIElement::IsInside(position, true) converts
the screen position to element coordinates and checks it against [0, size)
on both axes; `screenPos` is the element's screen position. -/
def isInside (screenPos : IntVector2) (e : UIElem) (p : IntVector2) : Bool :=
  decide (screenPos.x ≤ p.x) && decide (p.x < screenPos.x + e.size.x) &&
  decide (screenPos.y ≤ p.y) && decide (p.y < screenPos.y + e.size.y)

/-- Bounding-box union of two IntRects (IntRect::Merge). -/
def rectUnion (a b : IntRect) : IntRect :=
  ⟨min a.left b.left, min a.top b.top, max a.right b.right, max a.bottom b.bottom⟩

/-- IntRect::IsInside(p) == INSIDE: half-open containment. -/
def rectIsInside (r : IntRect) (p : IntVector2) : Bool :=
  decide (r.left ≤ p.x) && decide (p.x < r.right) &&
  decide (r.top ≤ p.y) && decide (p.y < r.bottom)

mutual
/-- Modelled from the spec: UIElement::GetCombinedScreenRect — the
bounding box of the element's own screen rect and all descendants' rects
(`screenPos` is this element's screen position). -/
def combinedScreenRect (screenPos : IntVector2) : UIElem → IntRect
  | .mk _ _ size _ _ _ _ _ _ _ children =>
    combinedScreenRectList screenPos children
      ⟨screenPos.x, screenPos.y, screenPos.x + size.x, screenPos.y + size.y⟩

/-- Fold of `combinedScreenRect` over a child list; `base` is the parent's
screen position. -/
def combinedScreenRectList (base : IntVector2) : List UIElem → IntRect → IntRect
  | [], acc => acc
  | c :: rest, acc =>
    combinedScreenRectList base rest (rectUnion acc (combinedScreenRect (base + c.position) c))
end

/-- Modelled from the spec: UIElement::IsInsideCombined(position, true). -/
def isInsideCombined (screenPos : IntVector2) (e : UIElem) (p : IntVector2) : Bool :=
  rectIsInside (combinedScreenRect screenPos e) p

/-- Stable insertion of an element into a priority-sorted list: placed
before the first strictly-greater priority, after equal priorities. -/
def insertByPriority (c : UIElem) : List UIElem → List UIElem
  | [] => [c]
  | d :: rest => if c.priority ≤ d.priority then c :: d :: rest else d :: insertByPriority c rest

/-- Modelled from the spec: UIElement::SortChildren — children sorted by
priority ascending, stable with insertion-order tie-break. -/
def sortChildren (l : List UIElem) : List UIElem :=
  l.foldr insertByPriority []

/-- The skip count `(unsigned)(-screenPos / (layoutMaxSize + spacing))`
of the layout optimisation (UI.cpp line 1367); operands are non-negative
at the use site, where C and Lean integer division agree. -/
def skipAmount (screenPos layoutMaxSize layoutSpacing : Int) : Nat :=
  ((-screenPos) / (layoutMaxSize + layoutSpacing)).toNat

mutual
/-- The recursive UI::GetElementAt(result, current, position, enabledOnly)
(UI.cpp lines 1318-1389).  `base` is `current`'s screen position;
`rootPos`/`rootSize` are rootElement_'s position and size, read by the
layout early-termination checks (lines 1375-1384).  `fuel` bounds the
number of evaluation steps (one per loop entry and per descent); the C++
recursion always terminates on finite trees, and any fuel at least the
total number of steps gives the exact C++ behaviour. -/
def uiGetElementAt (fuel : Nat) (rootPos rootSize base : IntVector2) (current : UIElem)
    (position : IntVector2) (enabledOnly : Bool) (result : Option Nat) : Option Nat :=
  match fuel with
  | 0 => result
  | fuel' + 1 =>
    uiLoop fuel' rootPos rootSize base current.layoutMode current.layoutMaxSize
      current.layoutSpacing (sortChildren current.children) position enabledOnly 0 result

/-- The child loop of the recursive GetElementAt (UI.cpp lines 1327-1388),
one call per loop entry at index `i`; `break` returns the current result,
`i += toSkip - 1; ++i` advances the index by toSkip. -/
def uiLoop (fuel : Nat) (rootPos rootSize base : IntVector2) (parentLayoutMode : LayoutMode)
    (layoutMaxSize layoutSpacing : Int) (children : List UIElem) (position : IntVector2)
    (enabledOnly : Bool) (i : Nat) (result : Option Nat) : Option Nat :=
  match fuel with
  | 0 => result
  | fuel' + 1 =>
    if h : i < children.length then
      let element := children.get ⟨i, h⟩
      let elemScreen := base + element.position
      let hasChildren : Bool := element.children.length > 0
      if element.isCursorElem = false ∧ element.visible = true then
        if isInside elemScreen element position then
          let result1 := if element.enabled = true ∨ enabledOnly = false then some element.tag else result
          if hasChildren then
            let result2 := uiGetElementAt fuel' rootPos rootSize elemScreen element position enabledOnly result1
            uiLoop fuel' rootPos rootSize base parentLayoutMode layoutMaxSize layoutSpacing children
              position enabledOnly (i + 1) result2
          else if parentLayoutMode ≠ LayoutMode.free then result1
          else
            uiLoop fuel' rootPos rootSize base parentLayoutMode layoutMaxSize layoutSpacing children
              position enabledOnly (i + 1) result1
        else
          if hasChildren then
            if isInsideCombined elemScreen element position then
              let result2 := uiGetElementAt fuel' rootPos rootSize elemScreen element position enabledOnly result
              uiLoop fuel' rootPos rootSize base parentLayoutMode layoutMaxSize layoutSpacing children
                position enabledOnly (i + 1) result2
            else
              uiLoop fuel' rootPos rootSize base parentLayoutMode layoutMaxSize layoutSpacing children
                position enabledOnly (i + 1) result
          else if parentLayoutMode ≠ LayoutMode.free then
            if i = 0 then
              let screenPos := if parentLayoutMode = LayoutMode.horizontal then elemScreen.x else elemScreen.y
              if screenPos < 0 ∧ 0 < layoutMaxSize then
                let toSkip := skipAmount screenPos layoutMaxSize layoutSpacing
                if 0 < toSkip then
                  uiLoop fuel' rootPos rootSize base parentLayoutMode layoutMaxSize layoutSpacing children
                    position enabledOnly (i + 1 + (toSkip - 1)) result
                else
                  uiLoop fuel' rootPos rootSize base parentLayoutMode layoutMaxSize layoutSpacing children
                    position enabledOnly (i + 1) result
              else
                uiLoop fuel' rootPos rootSize base parentLayoutMode layoutMaxSize layoutSpacing children
                  position enabledOnly (i + 1) result
            else if parentLayoutMode = LayoutMode.horizontal then
              if rootPos.x + rootSize.x ≤ elemScreen.x then result
              else
                uiLoop fuel' rootPos rootSize base parentLayoutMode layoutMaxSize layoutSpacing children
                  position enabledOnly (i + 1) result
            else
              if rootPos.y + rootSize.y ≤ elemScreen.y then result
              else
                uiLoop fuel' rootPos rootSize base parentLayoutMode layoutMaxSize layoutSpacing children
                  position enabledOnly (i + 1) result
          else
            uiLoop fuel' rootPos rootSize base parentLayoutMode layoutMaxSize layoutSpacing children
              position enabledOnly (i + 1) result
      else
        uiLoop fuel' rootPos rootSize base parentLayoutMode layoutMaxSize layoutSpacing children
          position enabledOnly (i + 1) result
    else result
end
/-- UI::GetElementAt(root, position, enabledOnly) (UI.cpp lines 871-896):
bounds check against the searched root's rect (inclusive upper edge), wrap
of the position into the root when the UI is smaller than the screen, then
the recursive search with a null initial result.  `rootPos`/`rootSize` are
rootElement_'s geometry, threaded to the layout early-termination checks.
All operands of the C++ `%` are non-negative at this site, so C truncated
remainder and Lean's `%` agree. -/
def getElementAtRoot (fuel : Nat) (rootPos rootSize : IntVector2) (root : UIElem)
    (position : IntVector2) (enabledOnly : Bool) : Option Nat :=
  let rSize := root.size
  let rPos := root.position
  if position.x < rPos.x ∨ rPos.x + rSize.x < position.x then none
  else if position.y < rPos.y ∨ rPos.y + rSize.y < position.y then none
  else
    let positionCopy : IntVector2 :=
      if 0 < rSize.x ∧ 0 < rSize.y then
        ⟨if rPos.x + rSize.x ≤ position.x then rPos.x + ((position.x - rPos.x) % rSize.x) else position.x,
         if rPos.y + rSize.y ≤ position.y then rPos.y + ((position.y - rPos.y) % rSize.y) else position.y⟩
      else position
    uiGetElementAt fuel rootPos rootSize root.position root positionCopy enabledOnly none

/-- One render-to-texture registration (UI.h RenderToTextureData): the
weak root pointer, `none` when expired. -/
structure RttData where
  root : Option UIElem

/-- The element roots that UI::GetElementAt consults: the normal root,
the modal root, and the render-to-texture surfaces. -/
structure UIWorld where
  rootElement : UIElem
  rootModalElement : UIElem
  renderToTexture : List RttData

/-- UI::HasModalElement (UI.cpp lines 984-987): the modal root has at
least one child. -/
def hasModalElement (w : UIWorld) : Bool :=
  w.rootModalElement.children.length > 0

/-- The render-to-texture fallback loop of UI::GetElementAt (UI.cpp lines
841-858): skip expired or disabled roots, project the position into the
surface, test the combined screen rect, and return the first hit. -/
def searchRtt (fuel : Nat) (rootPos rootSize position : IntVector2) (enabledOnly : Bool) :
    List RttData → Option Nat
  | [] => none
  | d :: rest =>
    match d.root with
    | none => searchRtt fuel rootPos rootSize position enabledOnly rest
    | some r =>
      if r.enabled = false then searchRtt fuel rootPos rootSize position enabledOnly rest
      else
        let screenPosition : IntVector2 := ⟨position.x - r.position.x, position.y - r.position.y⟩
        if rectIsInside (combinedScreenRect r.position r) screenPosition then
          match getElementAtRoot fuel rootPos rootSize r screenPosition enabledOnly with
          | some res => some res
          | none => searchRtt fuel rootPos rootSize position enabledOnly rest
        else searchRtt fuel rootPos rootSize position enabledOnly rest

/-- UI::GetElementAt(position, enabledOnly, elementScreenPosition)
(UI.cpp lines 828-864): search the modal root first when a modal element
is active, fall back to the normal root when that search yields nothing,
and finally to the render-to-texture surfaces. -/
def uiGetElementAtTop (fuel : Nat) (w : UIWorld) (position : IntVector2)
    (enabledOnly : Bool) : Option Nat :=
  let rootPos := w.rootElement.position
  let rootSize := w.rootElement.size
  let result :=
    if hasModalElement w then
      getElementAtRoot fuel rootPos rootSize w.rootModalElement position enabledOnly
    else none
  let result :=
    match result with
    | some r => some r
    | none => getElementAtRoot fuel rootPos rootSize w.rootElement position enabledOnly
  match result with
  | some r => some r
  | none =>
    if w.renderToTexture.length ≠ 0 then
      searchRtt fuel rootPos rootSize position enabledOnly w.renderToTexture
    else none

mutual
/-- All identity tags in an element's subtree (the element and its
descendants). -/
def subtreeTags : UIElem → List Nat
  | .mk t _ _ _ _ _ _ _ _ _ children => t :: forestTags children

/-- All identity tags in a forest of elements. -/
def forestTags : List UIElem → List Nat
  | [] => []
  | c :: rest => subtreeTags c ++ forestTags rest
end

/-- A neutral element record for batches whose element is irrelevant to
the property at hand (Merge and AddOrMerge read no element state). -/
def exampleBatchElement : BatchElement :=
  { screenPosition := ⟨0, 0⟩
    size := ⟨10, 10⟩
    colorTopLeft := ⟨1, 1, 1, 1⟩
    colorTopRight := ⟨1, 1, 1, 1⟩
    colorBottomLeft := ⟨1, 1, 1, 1⟩
    colorBottomRight := ⟨1, 1, 1, 1⟩
    derivedOpacity := 1
    derivedColor := ⟨1, 1, 1, 1⟩
    hasColorGradient := false }

/-- Batch constructor for concrete test instances: common render state
except where varied. -/
def mkBatch (blend : BlendMode) (tex : Option Nat) (vstart vend : Nat)
    (cmat : Option Nat) : UIBatch :=
  { element := exampleBatchElement
    blendMode := blend
    scissor := ⟨0, 0, 100, 100⟩
    texture := tex
    invTextureSize := (1, 1)
    vertexData := 0
    buffer := []
    vertexStart := vstart
    vertexEnd := vend
    color := 0xffffffff
    useGradient := false
    customMaterial := cmat }

/-- An element with a fully transparent derived colour and no gradient,
for the alpha-gate instances. -/
def transparentElement : BatchElement :=
  { exampleBatchElement with derivedColor := ⟨1, 1, 1, 0⟩ }

/-- A batch whose solid colour has a zero alpha byte, no gradient, over
`transparentElement`. -/
def transparentBatch : UIBatch :=
  { mkBatch BLEND_ALPHA none 0 0 none with
    element := transparentElement
    color := 0x00ffffff }

/-- The identity transform. -/
def idTransform : Matrix3x4 := ⟨1, 0, 0, 0, 1, 0⟩

/-- Modal-subtree child for the hit-test instances: a small window at the
origin. -/
def modalChildElem : UIElem :=
  .mk 1 ⟨0, 0⟩ ⟨10, 10⟩ true true false 0 .free 0 0 []

/-- Normal-subtree child covering the whole screen. -/
def normalChildElem : UIElem :=
  .mk 2 ⟨0, 0⟩ ⟨200, 200⟩ true true false 0 .free 0 0 []

/-- Normal root of the hit-test instance. -/
def exampleRootNormal : UIElem :=
  .mk 100 ⟨0, 0⟩ ⟨200, 200⟩ true true false 0 .free 0 0 [normalChildElem]

/-- Modal root of the hit-test instance, holding one modal child, so a
modal element is active. -/
def exampleRootModal : UIElem :=
  .mk 101 ⟨0, 0⟩ ⟨200, 200⟩ true true false 0 .free 0 0 [modalChildElem]

/-- The hit-test world with an active modal element and no
render-to-texture surfaces. -/
def exampleUIWorld : UIWorld :=
  ⟨exampleRootNormal, exampleRootModal, []⟩

/-- An all-live, all-enabled, all-visible element environment with no
drag-drop capabilities, for router instances. -/
def liveEnv : Nat → ElemInfo := fun _ => ⟨true, true, true, 0⟩

/-- A drag entry holding two buttons (mask 3 = buttons 1 and 2), already
ACTIVE (begin fired). -/
def twoButtonDrag : DragData :=
  { dragButtons := 3
    dragBeginPending := false
    sumPos := ⟨0, 0⟩
    dragBeginSumPos := ⟨0, 0⟩
    dragBeginTimerMs := 0
    numDragButtons := 2 }

/-- A still-PENDING drag entry on one button. -/
def pendingDrag : DragData :=
  { dragButtons := 1
    dragBeginPending := true
    sumPos := ⟨5, 5⟩
    dragBeginSumPos := ⟨5, 5⟩
    dragBeginTimerMs := 0
    numDragButtons := 1 }

/-- A modal world for the SetModalElement instances: element 10 is a
Window under the normal root (id 0); element 11 is a Window already under
the modal root (id 1); element 12 is not a Window. -/
def exampleModalWorld : ModalWorld :=
  { elems :=
      [(0, ⟨5, none, [10, 12], none, none, none, none⟩),
       (1, ⟨5, none, [11], none, none, none, none⟩),
       (10, ⟨7, some 0, [], none, none, none, none⟩),
       (11, ⟨7, some 1, [], none, none, none, none⟩),
       (12, ⟨6, some 0, [], none, none, none, none⟩)]
    rootId := 0
    rootModalId := 1 }

/-- The Window type tag used with `exampleModalWorld`. -/
def exampleWindowType : Nat := 7

/-!
## Theorems

One block per claim of the specification, preceded by shared helper
lemmas where needed.
-/

/-- Claim C1 (counterexample to the claim as stated): `Merge` succeeds on
two batches that disagree on the custom material — UIBatch.cpp lines
566-570 compare blend mode, scissor, texture, vertex-buffer identity and
contiguity but never `customMaterial_`, so agreement on the custom
material is not required for `Merge` to return true. -/
theorem claim_C1_counterexample :
    (UIBatch.Merge (mkBatch 0 none 0 36 none) (mkBatch 0 none 36 72 (some 1))).1 = true ∧
    (mkBatch 0 none 0 36 none).customMaterial ≠ (mkBatch 0 none 36 72 (some 1)).customMaterial := by
  decide

/-- Claim C1 (amended): `Merge(candidate)` returns true and extends the
receiver's vertex-range end to the candidate's end if and only if the two
batches agree on blend mode, scissor rect, texture and vertex-buffer
identity and the candidate's vertex start equals the receiver's vertex end
(custom material is not compared); when it returns false the receiver is
left unchanged. -/
theorem claim_C1_amended (self batch : UIBatch) :
    ((UIBatch.Merge self batch).1 = true ↔
      batch.blendMode = self.blendMode ∧ batch.scissor = self.scissor ∧
      batch.texture = self.texture ∧ batch.vertexData = self.vertexData ∧
      batch.vertexStart = self.vertexEnd) ∧
    ((UIBatch.Merge self batch).1 = true →
      (UIBatch.Merge self batch).2 = { self with vertexEnd := batch.vertexEnd }) ∧
    ((UIBatch.Merge self batch).1 = false → (UIBatch.Merge self batch).2 = self) := by
  refine ⟨?_, ?_, ?_⟩ <;> simp only [UIBatch.Merge] <;> split <;> simp_all <;> tauto

/-- Claim C1 (witness): the amended characterisation applied to a
concrete mergeable pair. -/
theorem claim_C1_witness :
    (UIBatch.Merge (mkBatch 0 none 0 36 none) (mkBatch 0 none 36 72 none)).2 =
      { mkBatch 0 none 0 36 none with vertexEnd := 72 } :=
  (claim_C1_amended (mkBatch 0 none 0 36 none) (mkBatch 0 none 36 72 none)).2.1 (by decide)

/-- Helper: merging a non-empty, state-matching, contiguous candidate into
a one-element list replaces the entry with the extended batch. -/
theorem addOrMerge_singleton (B c : UIBatch)
    (hne : c.vertexStart ≠ c.vertexEnd)
    (hstart : c.vertexStart = B.vertexEnd)
    (hblend : B.blendMode = c.blendMode) (hsc : B.scissor = c.scissor)
    (htex : B.texture = c.texture) (hvd : B.vertexData = c.vertexData) :
    UIBatch.AddOrMerge c [B] = [{ B with vertexEnd := c.vertexEnd }] := by
  simp only [UIBatch.AddOrMerge, UIBatch.Merge]
  rw [if_neg (by omega)]
  simp_all

/-- Helper: folding `AddOrMerge` over a chain of non-empty candidates that
share render state and are append-contiguous, starting from the singleton
accumulator, yields a single entry spanning up to the last candidate's
end. -/
theorem foldl_addOrMerge_chain (cs : List UIBatch) : ∀ B : UIBatch,
    (∀ c ∈ cs, c.vertexStart ≠ c.vertexEnd) →
    List.Chain' (fun a c => c.vertexStart = a.vertexEnd ∧ a.blendMode = c.blendMode ∧
      a.scissor = c.scissor ∧ a.texture = c.texture ∧ a.vertexData = c.vertexData) (B :: cs) →
    cs.foldl (fun l c => UIBatch.AddOrMerge c l) [B] =
      [{ B with vertexEnd := (cs.getLast?.getD B).vertexEnd }] := by
  induction cs with
  | nil => intro B _ _; simp
  | cons c rest ih =>
    intro B hne hchain
    rw [List.chain'_cons] at hchain
    obtain ⟨⟨hstart, hblend, hsc, htex, hvd⟩, hchain'⟩ := hchain
    have hc := hne c (by simp)
    rw [List.foldl_cons, addOrMerge_singleton B c hc hstart hblend hsc htex hvd]
    cases rest with
    | nil => simp
    | cons d rest' =>
      rw [List.chain'_cons] at hchain'
      obtain ⟨⟨hd1, hd2, hd3, hd4, hd5⟩, hchain''⟩ := hchain'
      have := ih { B with vertexEnd := c.vertexEnd }
        (fun x hx => hne x (by simp [hx]))
        (by
          rw [List.chain'_cons]
          exact ⟨⟨by simpa using hd1, by simpa using hblend.trans hd2,
            by simpa using hsc.trans hd3, by simpa using htex.trans hd4,
            by simpa using hvd.trans hd5⟩, hchain''⟩)
      simpa using this

/-- Claim C2: AddOrMerge leaves the list unchanged on an empty candidate;
a non-empty same-state append-contiguous candidate sequence folded into an
empty list produces exactly one entry whose vertex range spans the union
(start of the first candidate to end of the last); and a non-empty
candidate differing from the list's last entry in blend mode, scissor or
texture is appended as a new separate entry. -/
theorem claim_C2 :
    (∀ (b : UIBatch) (l : List UIBatch), b.vertexEnd = b.vertexStart →
      UIBatch.AddOrMerge b l = l) ∧
    (∀ (c : UIBatch) (rest : List UIBatch),
      (∀ x ∈ c :: rest, x.vertexStart ≠ x.vertexEnd) →
      List.Chain' (fun a x => x.vertexStart = a.vertexEnd ∧ a.blendMode = x.blendMode ∧
        a.scissor = x.scissor ∧ a.texture = x.texture ∧ a.vertexData = x.vertexData)
        (c :: rest) →
      (c :: rest).foldl (fun l x => UIBatch.AddOrMerge x l) [] =
        [{ c with vertexEnd := (rest.getLast?.getD c).vertexEnd }]) ∧
    (∀ (l : List UIBatch) (B c : UIBatch), l.getLast? = some B →
      c.vertexStart ≠ c.vertexEnd →
      (c.blendMode ≠ B.blendMode ∨ c.scissor ≠ B.scissor ∨ c.texture ≠ B.texture) →
      UIBatch.AddOrMerge c l = l ++ [c]) := by
  refine ⟨?_, ?_, ?_⟩
  · intro b l hb
    simp [UIBatch.AddOrMerge, hb]
  · intro c rest hne hchain
    have hc := hne c (by simp)
    have h1 : UIBatch.AddOrMerge c [] = [c] := by
      simp only [UIBatch.AddOrMerge]
      rw [if_neg (by omega)]
      simp
    rw [List.foldl_cons, h1]
    exact foldl_addOrMerge_chain rest c (fun x hx => hne x (by simp [hx])) hchain
  · intro l B c hlast hcne hdiff
    have hl : l ≠ [] := by
      intro h
      rw [h] at hlast
      simp at hlast
    simp only [UIBatch.AddOrMerge]
    rw [if_neg (by omega), hlast]
    have hmerge : (UIBatch.Merge B c).1 = false := by
      simp only [UIBatch.Merge]
      rw [if_pos (by tauto)]
    have hmerge2 : (UIBatch.Merge B c).2 = B := by
      simp only [UIBatch.Merge]
      rw [if_pos (by tauto)]
    simp only [hmerge, hmerge2, Bool.false_eq_true, if_false]
    have : l.dropLast ++ [B] = l := by
      have hB : B = l.getLast hl := by
        rw [List.getLast?_eq_getLast l hl] at hlast
        exact (Option.some_injective _ hlast).symm
      rw [hB]
      exact List.dropLast_append_getLast hl
    rw [this]

/-- Claim C2 (witness): two contiguous same-state candidates fold to one
spanning entry. -/
theorem claim_C2_witness :
    [mkBatch 0 none 0 36 none, mkBatch 0 none 36 72 none].foldl
      (fun l x => UIBatch.AddOrMerge x l) [] =
      [{ mkBatch 0 none 0 36 none with vertexEnd := 72 }] := by
  have := claim_C2.2.1 (mkBatch 0 none 0 36 none) [mkBatch 0 none 36 72 none]
    (by decide) (by simp only [List.chain'_cons, List.chain'_singleton, and_true]; decide)
  simpa using this

/-- Claim C7 (counterexample to the claim as stated): the free-points
AddQuad variant (UIBatch.cpp lines 419-478) has no alpha/gradient gate, so
a batch whose solid colour has a zero alpha byte and whose element has no
gradient still appends 6 vertices there. -/
theorem claim_C7_counterexample :
    transparentBatch.useGradient = false ∧
    transparentBatch.color &&& 0xff000000 = 0 ∧
    transparentBatch.element.hasColorGradient = false ∧
    transparentBatch.vertexEnd = 0 ∧
    (transparentBatch.AddQuadPoints (0, 0) idTransform ⟨0, 0⟩ ⟨1, 0⟩ ⟨1, 1⟩ ⟨0, 1⟩
      ⟨0, 0⟩ ⟨1, 0⟩ ⟨1, 1⟩ ⟨0, 1⟩).vertexEnd = 36 := by
  decide

/-- Claim C7 (amended): for the rectangle AddQuad variants — the float
variant, the transform variant and the tiled variant — a batch whose solid
colour has a zero alpha byte while no gradient is active appends no
vertices (batch unchanged); the free-points variant appends vertices
regardless of the colour's alpha. -/
theorem claim_C7_amended :
    (∀ (self : UIBatch) (pa : ℚ × ℚ) (x y w h : ℚ) (tox toy tw th : Int),
      self.useGradient = false → self.color &&& 0xff000000 = 0 →
      self.AddQuadF pa x y w h tox toy tw th = self) ∧
    (∀ (self : UIBatch) (pa : ℚ × ℚ) (t : Matrix3x4) (x y w h tox toy tw th : Int),
      self.useGradient = false → self.color &&& 0xff000000 = 0 →
      self.AddQuadM pa t x y w h tox toy tw th = self) ∧
    (∀ (self : UIBatch) (pa : ℚ × ℚ) (fuel fuelRow : Nat)
      (x y w h tox toy tw th : Int) (tiled : Bool),
      self.useGradient = false → self.color &&& 0xff000000 = 0 →
      ∀ r, self.AddQuadTiled pa fuel fuelRow x y w h tox toy tw th tiled = some r → r = self) := by
  have hF : ∀ (self : UIBatch) (pa : ℚ × ℚ) (x y w h : ℚ) (tox toy tw th : Int),
      self.useGradient = false → self.color &&& 0xff000000 = 0 →
      self.AddQuadF pa x y w h tox toy tw th = self := by
    intro self pa x y w h tox toy tw th h1 h2
    simp only [UIBatch.AddQuadF]
    rw [if_pos ⟨h1, h2⟩]
  refine ⟨hF, ?_, ?_⟩
  · intro self pa t x y w h tox toy tw th h1 h2
    simp only [UIBatch.AddQuadM]
    rw [if_pos ⟨h1, h2⟩]
  · intro self pa fuel fuelRow x y w h tox toy tw th tiled h1 h2 r hr
    simp only [UIBatch.AddQuadTiled] at hr
    split at hr
    · exact (Option.some_injective _ hr).symm
    · split at hr
      · rw [hF self pa _ _ _ _ tox toy tw th h1 h2] at hr
        exact (Option.some_injective _ hr).symm
      · revert hr
        split
        · intro hr
          cases hr
        · rename_i calls _
          intro hr
          have hfold : ∀ (l : List (Int × Int × Int × Int)) (b : UIBatch),
              b.useGradient = false → b.color &&& 0xff000000 = 0 →
              l.foldl (fun bt q =>
                bt.AddQuadF pa ((x + q.1 : Int) : ℚ) ((y + q.2.1 : Int) : ℚ)
                  ((q.2.2.1 : Int) : ℚ) ((q.2.2.2 : Int) : ℚ) tox toy q.2.2.1 q.2.2.2) b = b := by
            intro l
            induction l with
            | nil => intro b _ _; rfl
            | cons q rest ih =>
              intro b hb1 hb2
              rw [List.foldl_cons, hF b pa _ _ _ _ tox toy q.2.2.1 q.2.2.2 hb1 hb2]
              exact ih b hb1 hb2
          rw [hfold calls self h1 h2] at hr
          exact (Option.some_injective _ hr).symm

/-- Claim C7 (witness): the float variant at the concrete transparent
batch appends nothing. -/
theorem claim_C7_witness :
    transparentBatch.AddQuadF (0, 0) 0 0 4 4 0 0 4 4 = transparentBatch :=
  claim_C7_amended.1 transparentBatch (0, 0) 0 0 4 4 0 0 4 4 (by decide) (by decide)

/-- Helper: closed form of one tiling row.  Starting at `tileX < width`
with a positive tile width, the row loop emits `ceil((width - tileX) /
texW)` tiles at positions `tileX + j*texW`, each of width `texW` except the
last, clipped to the remaining width, and needs one fuel step per tile plus
one for the exit test. -/
theorem tileRowCalls_closed (texW : Int) (ht : 1 ≤ texW) :
    ∀ (n : Nat) (width tileX tileY tileH : Int) (fuel : Nat),
      tileX < width →
      n = ((width - tileX).toNat + texW.toNat - 1) / texW.toNat →
      n + 1 ≤ fuel →
      tileRowCalls fuel width texW tileY tileH tileX =
        some ((List.range n).map (fun (j : Nat) =>
          (tileX + (j : Int) * texW, tileY,
           min (width - (tileX + (j : Int) * texW)) texW, tileH))) := by
  intro n
  induction n with
  | zero =>
    intro width tileX tileY tileH fuel hlt hn _
    exfalso
    have ht' : 0 < texW.toNat := by omega
    have : 1 ≤ ((width - tileX).toNat + texW.toNat - 1) / texW.toNat := by
      rw [Nat.one_le_div_iff ht']
      omega
    omega
  | succ n' ih =>
    intro width tileX tileY tileH fuel hlt hn hfuel
    obtain ⟨f, rfl⟩ : ∃ f, fuel = f + 1 := ⟨fuel - 1, by omega⟩
    simp only [tileRowCalls]
    rw [if_pos hlt]
    by_cases hcase : width - tileX ≤ texW
    · have hminW : min (width - tileX) texW = width - tileX := by omega
      have hn1 : n' = 0 := by
        have : ((width - tileX).toNat + texW.toNat - 1) / texW.toNat = 1 :=
          Nat.div_eq_of_lt_le (by omega) (by omega)
        omega
      subst hn1
      rw [hminW]
      have hstop : tileRowCalls f width texW tileY tileH (tileX + (width - tileX)) = some [] := by
        obtain ⟨f', rfl⟩ : ∃ f', f = f' + 1 := ⟨f - 1, by omega⟩
        simp only [tileRowCalls]
        rw [if_neg (by omega)]
      rw [hstop]
      norm_num [List.range_succ, hminW]
    · have hminW : min (width - tileX) texW = texW := by omega
      rw [hminW]
      have hn' : n' = ((width - (tileX + texW)).toNat + texW.toNat - 1) / texW.toNat := by
        have h1 : (width - (tileX + texW)).toNat = (width - tileX).toNat - texW.toNat := by omega
        have h2 : (width - tileX).toNat + texW.toNat - 1 =
            ((width - tileX).toNat - texW.toNat + texW.toNat - 1) + texW.toNat := by omega
        have h3 : ((width - tileX).toNat + texW.toNat - 1) / texW.toNat =
            ((width - tileX).toNat - texW.toNat + texW.toNat - 1) / texW.toNat + 1 := by
          rw [h2, Nat.add_div_right _ (by omega)]
        rw [h1]
        omega
      have hlt' : tileX + texW < width := by omega
      rw [ih width (tileX + texW) tileY tileH f hlt' hn' (by omega)]
      refine congrArg some ?_
      rw [List.range_succ_eq_map, List.map_cons, List.map_map]
      refine congrArg₂ List.cons ?_ ?_
      · simp [hminW]
      · refine List.map_congr_left ?_
        intro j _
        have harg : tileX + texW + (j : Int) * texW = tileX + ((j : Int) + 1) * texW := by ring
        simp only [Function.comp_apply, Nat.cast_succ, harg]

/-- Helper: closed form of the whole tiled partition.  With positive tile
sizes and a positive region width, the loop emits one row per
`ceil((height - tileY) / texH)`, each row the closed row form, row-major. -/
theorem tileCalls_closed (texW texH : Int) (hw : 1 ≤ texW) (hh : 1 ≤ texH)
    (width : Int) (hwid : 1 ≤ width) :
    ∀ (n : Nat) (height tileY : Int) (fuel fuelRow : Nat),
      tileY < height →
      n = ((height - tileY).toNat + texH.toNat - 1) / texH.toNat →
      n + 1 ≤ fuel →
      (width.toNat + texW.toNat - 1) / texW.toNat + 1 ≤ fuelRow →
      tileCalls fuel fuelRow width height texW texH tileY =
        some ((List.range n).flatMap (fun (i : Nat) =>
          (List.range ((width.toNat + texW.toNat - 1) / texW.toNat)).map (fun (j : Nat) =>
            ((j : Int) * texW, tileY + (i : Int) * texH,
             min (width - (j : Int) * texW) texW,
             min (height - (tileY + (i : Int) * texH)) texH)))) := by
  intro n
  induction n with
  | zero =>
    intro height tileY fuel fuelRow hlt hn _ _
    exfalso
    have ht' : 0 < texH.toNat := by omega
    have : 1 ≤ ((height - tileY).toNat + texH.toNat - 1) / texH.toNat := by
      rw [Nat.one_le_div_iff ht']
      omega
    omega
  | succ n' ih =>
    intro height tileY fuel fuelRow hlt hn hfuel hfuelRow
    obtain ⟨f, rfl⟩ : ∃ f, fuel = f + 1 := ⟨fuel - 1, by omega⟩
    simp only [tileCalls]
    rw [if_pos hlt]
    have hrow := tileRowCalls_closed texW hw ((width.toNat + texW.toNat - 1) / texW.toNat)
      width 0 tileY (min (height - tileY) texH) fuelRow (by omega) (by norm_num) hfuelRow
    rw [hrow]
    by_cases hcase : height - tileY ≤ texH
    · have hminH : min (height - tileY) texH = height - tileY := by omega
      have hn1 : n' = 0 := by
        have : ((height - tileY).toNat + texH.toNat - 1) / texH.toNat = 1 :=
          Nat.div_eq_of_lt_le (by omega) (by omega)
        omega
      subst hn1
      have hstop : tileCalls f fuelRow width height texW texH (tileY + min (height - tileY) texH) =
          some [] := by
        obtain ⟨f', rfl⟩ : ∃ f', f = f' + 1 := ⟨f - 1, by omega⟩
        simp only [tileCalls]
        rw [if_neg (by omega)]
      rw [hstop]
      refine congrArg some ?_
      rw [List.append_nil]
      norm_num [List.range_succ]
    · have hminH : min (height - tileY) texH = texH := by omega
      have hn' : n' = ((height - (tileY + texH)).toNat + texH.toNat - 1) / texH.toNat := by
        have h1 : (height - (tileY + texH)).toNat = (height - tileY).toNat - texH.toNat := by omega
        have h2 : (height - tileY).toNat + texH.toNat - 1 =
            ((height - tileY).toNat - texH.toNat + texH.toNat - 1) + texH.toNat := by omega
        have h3 : ((height - tileY).toNat + texH.toNat - 1) / texH.toNat =
            ((height - tileY).toNat - texH.toNat + texH.toNat - 1) / texH.toNat + 1 := by
          rw [h2, Nat.add_div_right _ (by omega)]
        rw [h1]
        omega
      have hlt' : tileY + texH < height := by omega
      rw [hminH, ih height (tileY + texH) f fuelRow hlt' hn' (by omega) hfuelRow]
      refine congrArg some ?_
      rw [List.range_succ_eq_map, List.flatMap_cons, List.flatMap_map]
      refine congrArg₂ HAppend.hAppend ?_ ?_
      · refine List.map_congr_left ?_
        intro j _
        simp [hminH]
      · rw [List.flatMap]
        rw [List.flatMap]
        refine congrArg List.flatten ?_
        refine List.map_congr_left ?_
        intro i _
        refine List.map_congr_left ?_
        intro j _
        have harg : tileY + texH + (i : Int) * texH = tileY + ((i : Int) + 1) * texH := by ring
        simp only [Nat.cast_succ, harg]

/-- Claim C8: with tiling requested over a region of width W ≥ 1 and
height H ≥ 1 and texture-region size (tw, th) with tw ≥ 1 and th ≥ 1, the
partition loop emits exactly ceil(W/tw) * ceil(H/th) sub-quad calls,
row-major from the region origin, every sub-quad of size (tw, th) except
those in the final row or column, which are clipped to the remaining size
(the emitted tuples are the (tileX, tileY, tileW, tileH) arguments of the
inner AddQuad calls; the region offset (x, y) is added and the clipped
size reused as the texture size at the call site, UIBatch.cpp line 408). -/
theorem claim_C8 (width height texW texH : Int)
    (h1 : 1 ≤ width) (h2 : 1 ≤ height) (h3 : 1 ≤ texW) (h4 : 1 ≤ texH) :
    tileCalls (height.toNat + 1) (width.toNat + 1) width height texW texH 0 =
      some ((List.range ((height.toNat + texH.toNat - 1) / texH.toNat)).flatMap (fun (i : Nat) =>
        (List.range ((width.toNat + texW.toNat - 1) / texW.toNat)).map (fun (j : Nat) =>
          ((j : Int) * texW, (i : Int) * texH,
           min (width - (j : Int) * texW) texW,
           min (height - (i : Int) * texH) texH)))) ∧
    (∀ l, tileCalls (height.toNat + 1) (width.toNat + 1) width height texW texH 0 = some l →
      l.length = ((width.toNat + texW.toNat - 1) / texW.toNat) *
        ((height.toNat + texH.toNat - 1) / texH.toNat)) := by
  have hwle : width.toNat ≤ width.toNat * texW.toNat :=
    Nat.le_mul_of_pos_right _ (by omega)
  have hhle : height.toNat ≤ height.toNat * texH.toNat :=
    Nat.le_mul_of_pos_right _ (by omega)
  have hfuelRow : (width.toNat + texW.toNat - 1) / texW.toNat + 1 ≤ width.toNat + 1 := by
    have := (Nat.div_lt_iff_lt_mul (show 0 < texW.toNat by omega)).mpr
      (show width.toNat + texW.toNat - 1 < (width.toNat + 1) * texW.toNat by
        have : (width.toNat + 1) * texW.toNat = width.toNat * texW.toNat + texW.toNat := by ring
        omega)
    omega
  have hfuel : (height.toNat + texH.toNat - 1) / texH.toNat + 1 ≤ height.toNat + 1 := by
    have := (Nat.div_lt_iff_lt_mul (show 0 < texH.toNat by omega)).mpr
      (show height.toNat + texH.toNat - 1 < (height.toNat + 1) * texH.toNat by
        have : (height.toNat + 1) * texH.toNat = height.toNat * texH.toNat + texH.toNat := by ring
        omega)
    omega
  have hmain := tileCalls_closed texW texH h3 h4 width h1
    ((height.toNat + texH.toNat - 1) / texH.toNat) height 0
    (height.toNat + 1) (width.toNat + 1) (by omega) (by norm_num) hfuel hfuelRow
  have hform :
      tileCalls (height.toNat + 1) (width.toNat + 1) width height texW texH 0 =
        some ((List.range ((height.toNat + texH.toNat - 1) / texH.toNat)).flatMap (fun (i : Nat) =>
          (List.range ((width.toNat + texW.toNat - 1) / texW.toNat)).map (fun (j : Nat) =>
            ((j : Int) * texW, (i : Int) * texH,
             min (width - (j : Int) * texW) texW,
             min (height - (i : Int) * texH) texH)))) := by
    simpa using hmain
  refine ⟨hform, ?_⟩
  intro l hl
  rw [hform] at hl
  have hl' := Option.some_injective _ hl
  subst hl'
  simp only [List.length_flatMap, Function.comp_def, List.length_map, List.length_range,
    List.map_const', List.sum_replicate, smul_eq_mul]
  ring

/-- Claim C8 (witness): a 5x3 region tiled with 2x2 tiles gives the six
expected sub-quads, row-major with the last row and column clipped. -/
theorem claim_C8_witness :
    tileCalls 4 6 5 3 2 2 0 =
      some [(0, 0, 2, 2), (2, 0, 2, 2), (4, 0, 1, 2),
            (0, 2, 2, 1), (2, 2, 2, 1), (4, 2, 1, 1)] := by
  have h := (claim_C8 5 3 2 2 (by norm_num) (by norm_num) (by norm_num) (by norm_num)).1
  exact h.trans (by decide)

/-- Helper: with a positive tile width the row loop terminates — the fuel
`(width - tileX).toNat + 1` suffices. -/
theorem tileRowCalls_isSome (texW : Int) (ht : 1 ≤ texW) :
    ∀ (fuel : Nat) (width tileX tileY tileH : Int),
      (width - tileX).toNat < fuel →
      (tileRowCalls fuel width texW tileY tileH tileX).isSome := by
  intro fuel
  induction fuel with
  | zero => intro width tileX _ _ h; omega
  | succ f ih =>
    intro width tileX tileY tileH h
    simp only [tileRowCalls]
    split
    · rename_i hlt
      have hmin : 1 ≤ min (width - tileX) texW := by omega
      have hrec := ih width (tileX + min (width - tileX) texW) tileY tileH (by omega)
      cases hres : tileRowCalls f width texW tileY tileH (tileX + min (width - tileX) texW) with
      | none => rw [hres] at hrec; simp at hrec
      | some rest => simp [hres]
    · simp

/-- Helper: with positive tile sizes the whole partition loop terminates —
fuels `(height - tileY).toNat + 1` and `width.toNat + 1` suffice. -/
theorem tileCalls_isSome (texW texH : Int) (hw : 1 ≤ texW) (hh : 1 ≤ texH) :
    ∀ (fuel : Nat) (fuelRow : Nat) (width height tileY : Int),
      (height - tileY).toNat < fuel →
      width.toNat < fuelRow →
      (tileCalls fuel fuelRow width height texW texH tileY).isSome := by
  intro fuel
  induction fuel with
  | zero => intro fuelRow width height tileY h _; omega
  | succ f ih =>
    intro fuelRow width height tileY h hrow
    simp only [tileCalls]
    split
    · rename_i hlt
      have hminH : 1 ≤ min (height - tileY) texH := by omega
      have hr := tileRowCalls_isSome texW hw fuelRow width 0 tileY
        (min (height - tileY) texH) (by omega)
      cases hres : tileRowCalls fuelRow width texW tileY (min (height - tileY) texH) 0 with
      | none => rw [hres] at hr; simp at hr
      | some row =>
        have hrec := ih fuelRow width height (tileY + min (height - tileY) texH) (by omega) hrow
        cases hres2 : tileCalls f fuelRow width height texW texH
            (tileY + min (height - tileY) texH) with
        | none => rw [hres2] at hrec; simp at hrec
        | some rest => simp [hres, hres2]
    · simp

/-- Helper: with a zero tile width and a positive remaining width, the
tile origin never advances (`tileX + min (width - tileX) 0 = tileX`), so
the row loop exhausts every fuel: it returns none for all fuels. -/
theorem tileRowCalls_zero_none :
    ∀ (fuel : Nat) (width tileX tileY tileH : Int),
      tileX < width →
      tileRowCalls fuel width 0 tileY tileH tileX = none := by
  intro fuel
  induction fuel with
  | zero => intro _ _ _ _ _; rfl
  | succ f ih =>
    intro width tileX tileY tileH hlt
    simp only [tileRowCalls]
    rw [if_pos hlt]
    have hmin : min (width - tileX) 0 = 0 := by omega
    rw [hmin, add_zero, ih width tileX tileY tileH hlt]

/-- Claim C10: the tiled AddQuad partition loop terminates for every call
with texture-region size at least 1 on each axis; the precondition is
necessary — with texWidth = 0 and a positive region the tile origin stops
advancing and the loop never terminates (none at every fuel); and a zero
inner texture-region size with a positive inner region is reachable from
BorderImage::GetBatches when the image rect is smaller than its borders
(the centre quad call at BorderImage.cpp line 216 then passes texWidth = 0
with a positive width and the tiled flag). -/
theorem claim_C10 :
    (∀ (width height texW texH : Int), 1 ≤ texW → 1 ≤ texH →
      (tileCalls (height.toNat + 1) (width.toNat + 1) width height texW texH 0).isSome) ∧
    (∀ (fuel fuelRow : Nat) (width height texH : Int), 0 < width → 0 < height →
      tileCalls fuel fuelRow width height 0 texH 0 = none) ∧
    ((borderImageInnerSize ⟨100, 100⟩ 0 ⟨8, 8, 8, 8⟩).x > 0 ∧
     (borderImageInnerUvSize ⟨0, 0, 12, 12⟩
        (borderImageUvBorder ⟨8, 8, 8, 8⟩ ⟨0, 0, 0, 0⟩)).x = 0) := by
  refine ⟨?_, ?_, by decide⟩
  · intro width height texW texH hw hh
    exact tileCalls_isSome texW texH hw hh (height.toNat + 1) (width.toNat + 1)
      width height 0 (by omega) (by omega)
  · intro fuel fuelRow width height texH hwid hh
    cases fuel with
    | zero => rfl
    | succ f =>
      simp only [tileCalls]
      rw [if_pos (by omega), tileRowCalls_zero_none fuelRow width 0 0
        (min (height - 0) texH) (by omega)]

/-- Claim C10 (witness): the termination part applied at the concrete
2x2-tiled 5x3 region. -/
theorem claim_C10_witness :
    (1 : Int) ≤ 2 ∧ (tileCalls 4 6 5 3 2 2 0).isSome :=
  ⟨by norm_num, by
    have := claim_C10.1 5 3 2 2 (by norm_num) (by norm_num)
    simpa using this⟩

/-- Claim C4 (counterexample to the claim as stated): releasing one of two
participating buttons erases the whole DragData entry — ProcessClickEnd
(UI.cpp line 1683) calls DragElementErase for every entry whose button
mask contains the released button, without removing just that button or
checking whether other buttons remain. -/
theorem claim_C4_counterexample :
    (processClickEnd liveEnv (some 5) 1 true [(0, twoButtonDrag)]).1 = [] ∧
    twoButtonDrag.dragButtons &&& 1 ≠ 0 ∧ twoButtonDrag.dragButtons ≠ 1 := by
  decide

/-- Claim C4 (amended): when a participating button is released during a
tracked drag (cursor visible, elements live), the router erases the whole
DragData entry of every drag whose button mask contains that button,
regardless of other participating buttons; a drag-end callback fires for
such an entry exactly when the drag had become ACTIVE (begin already
fired, i.e. not pending) and the element is enabled and visible, and no
end callback fires for a still-PENDING entry. -/
theorem claim_C4_amended (env : Nat → ElemInfo) (hit : Option Nat) (button : Nat)
    (registry : DragRegistry)
    (halive : ∀ p ∈ registry, (env p.1).alive = true) :
    (processClickEnd env hit button true registry).1 =
      registry.filter (fun p => p.2.dragButtons &&& button == 0) ∧
    (∀ p ∈ registry, p.2.dragButtons &&& button ≠ 0 →
      (env p.1).enabled = true → (env p.1).visible = true → p.2.dragBeginPending = false →
      UIEvent.dragEnd p.1 ∈ (processClickEnd env hit button true registry).2) ∧
    (∀ e, UIEvent.dragEnd e ∈ (processClickEnd env hit button true registry).2 →
      ∃ d, (e, d) ∈ registry ∧ d.dragButtons &&& button ≠ 0 ∧
        (env e).enabled = true ∧ (env e).visible = true ∧ d.dragBeginPending = false) := by
  induction registry with
  | nil => simp [processClickEnd]
  | cons p rest ih =>
    obtain ⟨e, d⟩ := p
    have he : (env e).alive = true := halive (e, d) (by simp)
    obtain ⟨ih1, ih2, ih3⟩ := ih (fun q hq => halive q (by simp [hq]))
    simp only [processClickEnd]
    rw [if_neg (by simp [he])]
    by_cases hb : d.dragButtons &&& button ≠ 0
    · rw [if_pos hb]
      refine ⟨?_, ?_, ?_⟩
      · simpa [List.filter_cons, hb] using ih1
      · intro q hq hqb hqe hqv hqp
        rcases List.mem_cons.mp hq with hq1 | hq2
        · subst hq1
          refine List.mem_append_left _ (List.mem_append_right _ ?_)
          split
          · exact List.mem_cons_self _ _
          · rename_i hcond
            exact absurd ⟨hqe, hqv, hqp⟩ hcond
        · have := ih2 q hq2 hqb hqe hqv hqp
          exact List.mem_append_right _ this
      · intro e' he'
        simp only [List.mem_append] at he'
        rcases he' with ((h1a | h1b) | h2) | h3
        · exfalso
          revert h1a
          split <;> simp
        · exfalso
          simp at h1b
        · revert h2
          split
          · rename_i hcond
            intro h2
            simp only [List.mem_cons] at h2
            rcases h2 with h2a | h2b
            · cases h2a
              exact ⟨d, by simp, hb, hcond.1, hcond.2.1, hcond.2.2⟩
            · exfalso
              revert h2b
              split
              · split <;> simp_all
              · simp
          · simp
        · obtain ⟨d', hd1, hd2, hd3, hd4, hd5⟩ := ih3 e' h3
          exact ⟨d', by simp [hd1], hd2, hd3, hd4, hd5⟩
    · rw [if_neg hb]
      push_neg at hb
      refine ⟨?_, ?_, ?_⟩
      · simpa [List.filter_cons, hb] using ih1
      · intro q hq hqb hqe hqv hqp
        rcases List.mem_cons.mp hq with hq1 | hq2
        · exfalso
          subst hq1
          exact hqb hb
        · exact ih2 q hq2 hqb hqe hqv hqp
      · intro e' he'
        obtain ⟨d', hd1, hd2, hd3, hd4, hd5⟩ := ih3 e' he'
        exact ⟨d', by simp [hd1], hd2, hd3, hd4, hd5⟩

/-- Claim C4 (witness): the amended statement at the concrete two-button
ACTIVE drag — the entry is erased and the end callback fires. -/
theorem claim_C4_witness :
    (processClickEnd liveEnv (some 5) 1 true [(0, twoButtonDrag)]).1 =
      List.filter (fun p => p.2.dragButtons &&& 1 == 0) [(0, twoButtonDrag)] ∧
    UIEvent.dragEnd 0 ∈ (processClickEnd liveEnv (some 5) 1 true [(0, twoButtonDrag)]).2 := by
  have h := claim_C4_amended liveEnv (some 5) 1 [(0, twoButtonDrag)] (by decide)
  exact ⟨h.1, h.2.1 (0, twoButtonDrag) (by simp) (by decide) (by decide) (by decide) (by decide)⟩

/-- Claim C5 (counterexample to the claim as stated): an explicit drag
cancel on a still-PENDING drag fires no callback but also does NOT remove
the DragData entry — ProcessDragCancel (UI.cpp lines 2228-2236) only
erases entries whose dragBeginPending is false and steps past PENDING
entries with ++i, leaving them in the registry. -/
theorem claim_C5_counterexample :
    (processDragCancel liveEnv false [(0, pendingDrag)]).1 = [(0, pendingDrag)] ∧
    (processDragCancel liveEnv false [(0, pendingDrag)]).2 = [] := by
  decide

/-- Claim C5 (amended): if every tracked drag is still PENDING when an
explicit drag cancel is processed (mouse input), then no drag begin, end
or cancel callback fires and the drag registry is left completely
unchanged (the PENDING entries remain tracked). -/
theorem claim_C5_amended (env : Nat → ElemInfo) (registry : DragRegistry)
    (hpend : ∀ p ∈ registry, p.2.dragBeginPending = true) :
    processDragCancel env false registry = (registry, []) := by
  simp only [processDragCancel, Bool.false_eq_true, if_false]
  induction registry with
  | nil => rfl
  | cons p rest ih =>
    obtain ⟨e, d⟩ := p
    have hd : d.dragBeginPending = true := hpend (e, d) (by simp)
    simp only [processDragCancelLoop]
    rw [if_neg (by simp [hd])]
    rw [ih (fun q hq => hpend q (by simp [hq]))]

/-- Claim C5 (witness): the amended statement at the concrete PENDING
entry. -/
theorem claim_C5_witness :
    processDragCancel liveEnv false [(0, pendingDrag)] = ([(0, pendingDrag)], []) :=
  claim_C5_amended liveEnv [(0, pendingDrag)] (by decide)

/-- Helper: the square-free encoding of the float comparison
`Length() < maxDoubleClickDist_` agrees with the exact real comparison
against the Euclidean length. -/
theorem lengthLt_iff_sqrt (dx dy : Int) (m : ℚ) :
    lengthLt dx dy m = true ↔
      Real.sqrt (((dx * dx + dy * dy : Int) : ℝ)) < (m : ℝ) := by
  unfold lengthLt
  simp only [Bool.and_eq_true, decide_eq_true_eq]
  constructor
  · rintro ⟨hm, hlt⟩
    have hmR : (0 : ℝ) < (m : ℝ) := by exact_mod_cast hm
    rw [Real.sqrt_lt' hmR, sq]
    exact_mod_cast hlt
  · intro h
    have hm0 : (0 : ℝ) < (m : ℝ) := lt_of_le_of_lt (Real.sqrt_nonneg _) h
    have hm : 0 < m := by exact_mod_cast hm0
    refine ⟨hm, ?_⟩
    rw [Real.sqrt_lt' hm0, sq] at h
    exact_mod_cast h

/-- Claim C6 (counterexample to the claim as stated): the code uses strict
comparisons on both the time and the distance bound (UI.cpp line 1571:
`clickTimer_.GetMSec(true) < (unsigned)(doubleClickInterval_ * 1000)` and
`... .Length() < maxDoubleClickDist_`), so a click whose elapsed time
equals the configured interval (first conjunct; interval 500 ms, elapsed
exactly 500) or whose distance equals the configured maximum (second
conjunct; distance 5 = max 5) satisfies the claim's "at most" bounds yet
is not promoted to a double-click. -/
theorem claim_C6_counterexample :
    (UIEvent.onDoubleClick 0 ∉
        (processClickBegin false false ⟨some 0, ⟨0, 0⟩, 1⟩ [] 500 10 500
          ⟨0, 0⟩ (some 0) ⟨0, 0⟩ 1 1 true).2.2 ∧
      (500 : Nat) ≤ 500 ∧ Real.sqrt (((0 : Int) : ℝ)) ≤ 10) ∧
    (UIEvent.onDoubleClick 0 ∉
        (processClickBegin false false ⟨some 0, ⟨0, 0⟩, 1⟩ [] 500 5 0
          ⟨3, 4⟩ (some 0) ⟨3, 4⟩ 1 1 true).2.2 ∧
      Real.sqrt (((3 * 3 + 4 * 4 : Int) : ℝ)) ≤ 5) := by
  refine ⟨⟨by decide, by norm_num, ?_⟩, ⟨?_, ?_⟩⟩
  · norm_num [Real.sqrt_zero]
  · intro hmem
    revert hmem
    simp only [processClickBegin]
    rw [if_neg (by simp)]
    simp
    norm_num [lengthLt]
  · have h25 : ((3 * 3 + 4 * 4 : Int) : ℝ) = 5 ^ 2 := by norm_num
    rw [h25, Real.sqrt_sq (by norm_num)]

/-- Claim C6 (amended): with the cursor visible and an element under it, a
click-begin is promoted to a double-click (the OnDoubleClick callback
fires) if and only if the element equals the immediately preceding click's
element, the elapsed time since that click is strictly less than the
configured double-click interval, the held-button set (previous buttons
or-ed with the pressed button) equals the previous click's button set, and
the Euclidean distance from the first click position is strictly less than
the configured maximum double-click distance. -/
theorem claim_C6_amended (usingTouchInput hasModal : Bool) (cs : ClickState)
    (registry : DragRegistry) (intervalMs : Nat) (maxDist : ℚ) (clickTimerMs : Nat)
    (windowCursorPos : IntVector2) (e : Nat) (cursorPos : IntVector2)
    (button buttonsIn : Nat) :
    (UIEvent.onDoubleClick e ∈
      (processClickBegin usingTouchInput hasModal cs registry intervalMs maxDist
        clickTimerMs windowCursorPos (some e) cursorPos button buttonsIn true).2.2) ↔
      (cs.doubleClickElement = some e ∧ clickTimerMs < intervalMs ∧
       cs.lastMouseButtons = buttonsIn ||| button ∧
       Real.sqrt (((windowCursorPos.x - cs.doubleClickFirstPos.x) *
           (windowCursorPos.x - cs.doubleClickFirstPos.x) +
         (windowCursorPos.y - cs.doubleClickFirstPos.y) *
           (windowCursorPos.y - cs.doubleClickFirstPos.y) : Int) : ℝ) < (maxDist : ℝ)) := by
  by_cases hd : cs.doubleClickElement = some e ∧ clickTimerMs < intervalMs ∧
      cs.lastMouseButtons = buttonsIn ||| button ∧
      lengthLt (windowCursorPos.x - cs.doubleClickFirstPos.x)
        (windowCursorPos.y - cs.doubleClickFirstPos.y) maxDist = true
  · have hmem : UIEvent.onDoubleClick e ∈
        (processClickBegin usingTouchInput hasModal cs registry intervalMs maxDist
          clickTimerMs windowCursorPos (some e) cursorPos button buttonsIn true).2.2 := by
      simp only [processClickBegin]
      rw [if_neg (by simp)]
      simp only []
      rw [if_pos hd]
      simp
    simp only [hmem, true_iff]
    exact ⟨hd.1, hd.2.1, hd.2.2.1, (lengthLt_iff_sqrt _ _ _).mp hd.2.2.2⟩
  · have hmem : UIEvent.onDoubleClick e ∉
        (processClickBegin usingTouchInput hasModal cs registry intervalMs maxDist
          clickTimerMs windowCursorPos (some e) cursorPos button buttonsIn true).2.2 := by
      simp only [processClickBegin]
      rw [if_neg (by simp)]
      simp only []
      rw [if_neg hd]
      simp
    simp only [hmem, false_iff]
    intro ⟨h1, h2, h3, h4⟩
    exact hd ⟨h1, h2, h3, (lengthLt_iff_sqrt _ _ _).mpr h4⟩

/-- Claim C6 (witness): a click matching all four strict conditions is
promoted. -/
theorem claim_C6_witness :
    UIEvent.onDoubleClick 0 ∈
      (processClickBegin false false ⟨some 0, ⟨0, 0⟩, 1⟩ [] 500 10 100
        ⟨0, 0⟩ (some 0) ⟨0, 0⟩ 1 1 true).2.2 := by
  refine (claim_C6_amended false false ⟨some 0, ⟨0, 0⟩, 1⟩ [] 500 10 100
    ⟨0, 0⟩ 0 ⟨0, 0⟩ 1 1).mpr ⟨rfl, by norm_num, rfl, ?_⟩
  norm_num [Real.sqrt_zero]

/-- Claim C9: SetModalElement returns false and performs no reparenting or
bookkeeping change whenever the element is null, whenever its concrete
type is not the window type, whenever enable is requested while the
element is already a child of the modal root, or whenever disable is
requested while the element's current parent is not exactly the modal
root (UI.cpp lines 237-242, 249-250, 279-280 — each rejection returns
before any SetVar or SetParent call). -/
theorem claim_C9 (w : ModalWorld) (windowTypeId : Nat) (walkFuel : Nat) :
    (∀ enable, SetModalElement w none enable windowTypeId walkFuel = (false, w)) ∧
    (∀ id me enable, w.get id = some me → me.etype ≠ windowTypeId →
      SetModalElement w (some id) enable windowTypeId walkFuel = (false, w)) ∧
    (∀ id me, w.get id = some me → me.etype = windowTypeId →
      me.parent = some w.rootModalId →
      SetModalElement w (some id) true windowTypeId walkFuel = (false, w)) ∧
    (∀ id me, w.get id = some me → me.etype = windowTypeId →
      me.parent ≠ some w.rootModalId →
      SetModalElement w (some id) false windowTypeId walkFuel = (false, w)) := by
  refine ⟨fun enable => rfl, ?_, ?_, ?_⟩
  · intro id me enable hget htype
    simp only [SetModalElement, hget]
    rw [if_pos htype]
  · intro id me hget htype hparent
    simp only [SetModalElement, hget]
    rw [if_neg (by simp [htype]), if_pos trivial, if_pos hparent]
  · intro id me hget htype hparent
    simp only [SetModalElement, hget]
    rw [if_neg (by simp [htype])]
    simp only [Bool.false_eq_true, if_false]
    rw [if_pos hparent]

/-- Claim C9 (witness): the four rejections at the concrete modal world —
null element; non-Window element 12; enabling the already-modal window 11;
disabling the non-modal window 10. -/
theorem claim_C9_witness :
    SetModalElement exampleModalWorld none true exampleWindowType 8 = (false, exampleModalWorld) ∧
    SetModalElement exampleModalWorld (some 12) true exampleWindowType 8 = (false, exampleModalWorld) ∧
    SetModalElement exampleModalWorld (some 11) true exampleWindowType 8 = (false, exampleModalWorld) ∧
    SetModalElement exampleModalWorld (some 10) false exampleWindowType 8 = (false, exampleModalWorld) := by
  have h := claim_C9 exampleModalWorld exampleWindowType 8
  exact ⟨h.1 true,
    h.2.1 12 ⟨6, some 0, [], none, none, none, none⟩ true (by decide) (by decide),
    h.2.2.1 11 ⟨7, some 1, [], none, none, none, none⟩ (by decide) (by decide) (by decide),
    h.2.2.2 10 ⟨7, some 0, [], none, none, none, none⟩ (by decide) (by decide) (by decide)⟩

/-- Helper: an element's own tag is among its subtree tags. -/
theorem tag_mem_subtreeTags (c : UIElem) : c.tag ∈ subtreeTags c := by
  cases c
  simp [subtreeTags, UIElem.tag]

/-- Helper: a tag in an element's child forest is in its subtree. -/
theorem forest_mem_subtreeTags {t : Nat} (c : UIElem) :
    t ∈ forestTags c.children → t ∈ subtreeTags c := by
  cases c
  simp [subtreeTags, UIElem.children]
  tauto

/-- Helper: a tag in the subtree of a forest member is in the forest. -/
theorem subtree_sub_forest {t : Nat} {c : UIElem} : ∀ {l : List UIElem},
    c ∈ l → t ∈ subtreeTags c → t ∈ forestTags l := by
  intro l
  induction l with
  | nil => intro hc; cases hc
  | cons d rest ih =>
    intro hc ht
    rcases List.mem_cons.mp hc with h1 | h2
    · subst h1
      simp [forestTags, ht]
    · simp [forestTags, ih h2 ht]

/-- Helper: insertion keeps list membership. -/
theorem mem_insertByPriority {x c : UIElem} : ∀ {l : List UIElem},
    x ∈ insertByPriority c l → x = c ∨ x ∈ l := by
  intro l
  induction l with
  | nil => intro hx; simpa [insertByPriority] using hx
  | cons d rest ih =>
    intro hx
    simp only [insertByPriority] at hx
    split at hx
    · rcases List.mem_cons.mp hx with h1 | h2
      · exact Or.inl h1
      · exact Or.inr h2
    · rcases List.mem_cons.mp hx with h1 | h2
      · exact Or.inr (by simp [h1])
      · rcases ih h2 with h3 | h4
        · exact Or.inl h3
        · exact Or.inr (by simp [h4])

/-- Helper: SortChildren only permutes — members of the sorted list are
members of the original. -/
theorem mem_sortChildren {x : UIElem} : ∀ {l : List UIElem},
    x ∈ sortChildren l → x ∈ l := by
  intro l
  induction l with
  | nil => intro hx; simpa [sortChildren] using hx
  | cons d rest ih =>
    intro hx
    simp only [sortChildren, List.foldr_cons] at hx
    rcases mem_insertByPriority hx with h1 | h2
    · simp [h1]
    · exact List.mem_cons_of_mem _ (ih h2)

set_option maxHeartbeats 4000000 in
/-- Helper: everything the recursive hit-test search returns, beyond the
incoming result, carries a tag from the searched element's subtree — the
search never invents an element from outside the tree it was started on. -/
theorem uiSearch_mem (fuel : Nat) :
    (∀ (rootPos rootSize base : IntVector2) (current : UIElem) (position : IntVector2)
      (enabledOnly : Bool) (result : Option Nat) (t : Nat),
      uiGetElementAt fuel rootPos rootSize base current position enabledOnly result = some t →
      result = some t ∨ t ∈ forestTags current.children) ∧
    (∀ (rootPos rootSize base : IntVector2) (parentLayoutMode : LayoutMode)
      (layoutMaxSize layoutSpacing : Int) (children : List UIElem) (position : IntVector2)
      (enabledOnly : Bool) (i : Nat) (result : Option Nat) (t : Nat),
      uiLoop fuel rootPos rootSize base parentLayoutMode layoutMaxSize layoutSpacing children
        position enabledOnly i result = some t →
      result = some t ∨ ∃ c ∈ children, t ∈ subtreeTags c) := by
  induction fuel with
  | zero =>
    constructor
    · intro _ _ _ _ _ _ result t h
      exact Or.inl h
    · intro _ _ _ _ _ _ _ _ _ _ result t h
      exact Or.inl h
  | succ f ih =>
    obtain ⟨ihG, ihL⟩ := ih
    have hres1 : ∀ (children : List UIElem) (i : Nat) (hi : i < children.length)
        (result : Option Nat) (enabledOnly : Bool) (t : Nat),
        (if (children.get ⟨i, hi⟩).enabled = true ∨ enabledOnly = false
          then some (children.get ⟨i, hi⟩).tag else result) = some t →
        result = some t ∨ ∃ c ∈ children, t ∈ subtreeTags c := by
      intro children i hi result enabledOnly t ht
      split at ht
      · right
        refine ⟨children.get ⟨i, hi⟩, List.get_mem children _ _, ?_⟩
        cases ht
        exact tag_mem_subtreeTags _
      · exact Or.inl ht
    constructor
    · intro rootPos rootSize base current position enabledOnly result t h
      simp only [uiGetElementAt] at h
      rcases ihL _ _ _ _ _ _ _ _ _ _ _ _ h with h1 | ⟨c, hc, ht⟩
      · exact Or.inl h1
      · exact Or.inr (subtree_sub_forest (mem_sortChildren hc) ht)
    · intro rootPos rootSize base plm lms lsp children position enabledOnly i result t h
      simp only [uiLoop] at h
      split at h
      case isFalse => exact Or.inl h
      case isTrue hi =>
        have hresolve : ∀ (r : Option Nat),
            (r = some t ∨ ∃ c ∈ children, t ∈ subtreeTags c) →
            (r = result ∨ (r = some t → result = some t ∨ ∃ c ∈ children, t ∈ subtreeTags c)) →
            True := fun _ _ _ => trivial
        clear hresolve
        split at h
        · -- cursor/visible check passed
          split at h
          · -- isInside
            split at h
            · -- hasChildren: recurse into child, then continue the loop
              rcases ihL _ _ _ _ _ _ _ _ _ _ _ _ h with h1 | hex
              · rcases ihG _ _ _ _ _ _ _ _ h1 with h2 | hforest
                · exact hres1 children i hi result enabledOnly t h2
                · exact Or.inr ⟨children.get ⟨i, hi⟩, List.get_mem children _ _,
                    forest_mem_subtreeTags _ hforest⟩
              · exact Or.inr hex
            · split at h
              · -- break with result1
                exact hres1 children i hi result enabledOnly t h
              · -- continue with result1
                rcases ihL _ _ _ _ _ _ _ _ _ _ _ _ h with h1 | hex
                · exact hres1 children i hi result enabledOnly t h1
                · exact Or.inr hex
          · -- not inside
            split at h
            · -- hasChildren
              split at h
              · -- inside combined: recurse with result, then continue
                rcases ihL _ _ _ _ _ _ _ _ _ _ _ _ h with h1 | hex
                · rcases ihG _ _ _ _ _ _ _ _ h1 with h2 | hforest
                  · exact Or.inl h2
                  · exact Or.inr ⟨children.get ⟨i, hi⟩, List.get_mem children _ _,
                      forest_mem_subtreeTags _ hforest⟩
                · exact Or.inr hex
              · rcases ihL _ _ _ _ _ _ _ _ _ _ _ _ h with h1 | hex
                · exact Or.inl h1
                · exact Or.inr hex
            · -- layout-mode skip / break logic: every leaf either keeps
              -- the running result or loops on with it unchanged
              repeat' split at h
              all_goals first
                | exact Or.inl h
                | exact ihL _ _ _ _ _ _ _ _ _ _ _ _ h
        · -- cursor or invisible: loop on
          rcases ihL _ _ _ _ _ _ _ _ _ _ _ _ h with h1 | hex
          · exact Or.inl h1
          · exact Or.inr hex

/-- Helper: a successful root search yields a tag from the searched root's
subtree (the root itself is never returned, only descendants). -/
theorem getElementAtRoot_mem (fuel : Nat) (rootPos rootSize : IntVector2) (root : UIElem)
    (position : IntVector2) (enabledOnly : Bool) (t : Nat)
    (h : getElementAtRoot fuel rootPos rootSize root position enabledOnly = some t) :
    t ∈ subtreeTags root := by
  simp only [getElementAtRoot] at h
  split at h
  · cases h
  · split at h
    · cases h
    · rcases (uiSearch_mem fuel).1 _ _ _ _ _ _ _ _ h with h1 | h2
      · cases h1
      · exact forest_mem_subtreeTags _ h2

/-- Claim C3 (counterexample to the claim as stated): with a modal element
active (the modal root has one child, a 10x10 window at the origin),
GetElementAt at (150, 150) — outside every modal-subtree element — falls
back to the normal root (UI.cpp lines 835-836) and returns the normal
child (tag 2), an element outside the modal root's subtree. -/
theorem claim_C3_counterexample :
    hasModalElement exampleUIWorld = true ∧
    uiGetElementAtTop 10 exampleUIWorld ⟨150, 150⟩ true = some 2 ∧
    2 ∉ subtreeTags exampleRootModal := by
  refine ⟨rfl, by decide, by decide⟩

/-- Claim C3 (amended): whenever a modal element is active, GetElementAt
searches the modal root first: if that search yields an element, the call
returns it and it lies inside the modal root's subtree (regardless of the
priority/z-order of elements under the normal root); only when the modal
search yields nothing does the call fall back to the normal root and then
the render-to-texture surfaces, and only then can it return an element
outside the modal subtree. -/
theorem claim_C3_amended :
    (∀ (fuel : Nat) (w : UIWorld) (position : IntVector2) (enabledOnly : Bool) (t : Nat),
      hasModalElement w = true →
      getElementAtRoot fuel w.rootElement.position w.rootElement.size w.rootModalElement
        position enabledOnly = some t →
      uiGetElementAtTop fuel w position enabledOnly = some t ∧
        t ∈ subtreeTags w.rootModalElement) ∧
    (∀ (fuel : Nat) (w : UIWorld) (position : IntVector2) (enabledOnly : Bool),
      hasModalElement w = true →
      getElementAtRoot fuel w.rootElement.position w.rootElement.size w.rootModalElement
        position enabledOnly = none →
      uiGetElementAtTop fuel w position enabledOnly =
        (match getElementAtRoot fuel w.rootElement.position w.rootElement.size w.rootElement
            position enabledOnly with
         | some r => some r
         | none =>
            if w.renderToTexture.length ≠ 0 then
              searchRtt fuel w.rootElement.position w.rootElement.size position enabledOnly
                w.renderToTexture
            else none)) := by
  constructor
  · intro fuel w position enabledOnly t hmodal hsearch
    refine ⟨?_, getElementAtRoot_mem fuel _ _ _ _ _ t hsearch⟩
    simp only [uiGetElementAtTop, hmodal, if_true, hsearch]
  · intro fuel w position enabledOnly hmodal hsearch
    simp only [uiGetElementAtTop, hmodal, if_true, hsearch]

/-- Claim C3 (witness): at (5, 5), inside the modal child, the modal-first
search returns the modal child (tag 1) and the top-level call agrees. -/
theorem claim_C3_witness :
    uiGetElementAtTop 10 exampleUIWorld ⟨5, 5⟩ true = some 1 ∧
    1 ∈ subtreeTags exampleRootModal :=
  claim_C3_amended.1 10 exampleUIWorld ⟨5, 5⟩ true 1 rfl (by decide)

end Urho3D
